import Mathlib

/-!
Verification model of the competitive-analysis worker
(`src/unnamed/part_000`): the Durable-Object record store over the
`analyses` table, the staleness policy, the webhook signature check, the
webhook completion handler with its recursive competitor fan-out, and the
`/new` page handler.

Modelling conventions:
* Timestamps (`created_at`, `updated_at`, `Date.now()`) are integers
  (milliseconds since the epoch); the source stores ISO strings and
  compares their `Date` values, which is order-isomorphic.
* External I/O is passed in as oracles: the HMAC-SHA256-base64 keyed hash
  is a function parameter `hmac : String → String → String`, the DNS-based
  hostname validation is `valid : String → Bool`, the Parallel task
  submission is `submit : String → Except String Unit` (`.error` models the
  API call throwing), and the fetched task result is
  `fetch : Except String TaskResult`.
* JavaScript string functions are modelled over `List Char`
  (`String.data`) so that all definitions evaluate by kernel reduction.
* JSON values appearing in the task output are the inductive `JVal`;
  object key lists are assumed duplicate-free, as produced by `JSON.parse`.
-/

/-- JS-style lowercase (per-character; ASCII case folding as in
`String.prototype.toLowerCase` for the hostnames this app handles). -/
def strLower (s : String) : String := ⟨s.data.map Char.toLower⟩

/-- `String.prototype.split(sep)` for a one-character separator:
keeps empty segments, and splitting the empty string gives `[""]`. -/
def splitOnChar (sep : Char) : List Char → List (List Char)
  | [] => [[]]
  | c :: rest =>
    let r := splitOnChar sep rest
    if c = sep then [] :: r
    else match r with
      | [] => [[c]]
      | g :: gs => (c :: g) :: gs

/-- `header.split(" ")` from `verifyWebhookSignature`. -/
def strSplitSpace (s : String) : List String := (splitOnChar ' ' s.data).map (fun l => ⟨l⟩)

/-- `String.prototype.substring(n)`. -/
def strDropN (s : String) (n : Nat) : String := ⟨s.data.drop n⟩

/-- `String.prototype.startsWith(p)`. -/
def strStartsWith (p s : String) : Bool := List.isPrefixOf p.data s.data

/-- Substring containment over char lists (SQL `LIKE '%needle%'` with the
needle taken literally, and JS `includes`). -/
def containsChars (needle : List Char) : List Char → Bool
  | [] => needle.isEmpty
  | c :: rest => needle.isPrefixOf (c :: rest) || containsChars needle rest

/-- `hay` contains `needle` as a substring. -/
def strContains (hay needle : String) : Bool := containsChars needle.data hay.data

/-- JS whitespace test for `String.prototype.trim` (ASCII whitespace). -/
def isWsChar (c : Char) : Bool := c = ' ' || c = '\t' || c = '\n' || c = '\r'

/-- `String.prototype.trim()`. -/
def strTrim (s : String) : String :=
  ⟨((s.data.dropWhile isWsChar).reverse.dropWhile isWsChar).reverse⟩

/-- JSON values, for the task-result `output.content` payload. -/
inductive JVal where
  | null : JVal
  | bool : Bool → JVal
  | num : Int → JVal
  | str : String → JVal
  | arr : List JVal → JVal
  | obj : List (String × JVal) → JVal

/-- JavaScript truthiness (`!!v`) restricted to the JSON values `JVal`. -/
def jsTruthy : JVal → Bool
  | .null => false
  | .bool b => b
  | .num n => n != 0
  | .str s => s != ""
  | .arr _ => true
  | .obj _ => true

/-- JS strict equality with the empty string: `x === ""`. -/
def isEmptyStrVal : JVal → Bool
  | .str s => s == ""
  | _ => false

mutual
/-- `JSON.stringify` on `JVal` (string escaping omitted; no verified
property inspects the serialized text beyond equality of whole blobs). -/
def serializeJVal : JVal → String
  | .null => "null"
  | .bool true => "true"
  | .bool false => "false"
  | .num n => toString n
  | .str s => "\"" ++ s ++ "\""
  | .arr xs => "[" ++ serializeArr xs ++ "]"
  | .obj kvs => "\x7b" ++ serializeObj kvs ++ "\x7d"

/-- Comma-joined serialization of a JSON array body. -/
def serializeArr : List JVal → String
  | [] => ""
  | [x] => serializeJVal x
  | x :: xs => serializeJVal x ++ "," ++ serializeArr xs

/-- Comma-joined serialization of a JSON object body. -/
def serializeObj : List (String × JVal) → String
  | [] => ""
  | [kv] => "\"" ++ kv.1 ++ "\":" ++ serializeJVal kv.2
  | kv :: xs => "\"" ++ kv.1 ++ "\":" ++ serializeJVal kv.2 ++ "," ++ serializeObj xs
end

/-- One row of the `analyses` table (interface `AnalysisRow` in the
source; `company_name` is a NOT NULL column, the four denormalized search
columns and `result`/`error` are nullable). -/
structure AnalysisRow where
  hostname : String
  company_domain : String
  company_name : String
  status : String
  username : String
  profile_image_url : String
  created_at : Int
  updated_at : Int
  visits : Int
  result : Option String
  error : Option String
  category : Option String
  business_description : Option String
  industry_sector : Option String
  keywords : Option String
deriving DecidableEq, Repr

/-- The `analyses` table of the Durable Object, in insertion order;
`hostname` is the primary key and every operation below keeps it unique. -/
abbrev Store : Type := List AnalysisRow

/-- `getAnalysis`: `SELECT * FROM analyses WHERE hostname = ?`. -/
def getAnalysis (s : Store) (h : String) : Option AnalysisRow :=
  List.find? (fun r => r.hostname = h) s

/-- `deleteAnalysis`: `DELETE FROM analyses WHERE hostname = ?`. -/
def deleteAnalysis (s : Store) (h : String) : Store :=
  List.filter (fun r => r.hostname != h) s

/-- `createAnalysis`: `INSERT OR REPLACE INTO analyses ... VALUES ...`. -/
def createAnalysis (s : Store) (r : AnalysisRow) : Store :=
  deleteAnalysis s r.hostname ++ [r]

/-- `getUserAnalysisCount`: `SELECT COUNT(*) FROM analyses WHERE
username = ?` — no filter on status or error. -/
def getUserAnalysisCount (s : Store) (u : String) : Nat :=
  (List.filter (fun r => r.username = u) s).length

/-- `updateAnalysisResult`: `UPDATE analyses SET status='done', result=?,
error=?, updated_at=? WHERE hostname = ?`. -/
def updateAnalysisResult (s : Store) (h : String) (result error : Option String)
    (now : Int) : Store :=
  List.map (fun r => if r.hostname = h then
    { r with status := "done", result := result, error := error, updated_at := now }
    else r) s

/-- The `data` argument of `updateAnalysisResultWithData`: outer `none`
models a key absent from the object (JS `undefined`, not written), outer
`some` a supplied key whose value may be SQL NULL (`some none`). -/
structure UpdateData where
  company_name : Option (Option String)
  category : Option (Option String)
  business_description : Option (Option String)
  industry_sector : Option (Option String)
  keywords : Option (Option String)
deriving DecidableEq, Repr

/-- Apply the dynamically-built SET clause of `updateAnalysisResultWithData`
to one row: only keys that are `!== undefined` are written. The
`company_name` column is `TEXT NOT NULL`, so the SET clause can never
actually store NULL there: `updateAnalysisResultWithData` raises the
constraint error before any row is written whenever `d.company_name = some
none` reaches a matching row, and when no row matches this map is vacuous;
the `some none` arm below is therefore never observable through the store
operations. -/
def applyUpdateData (d : UpdateData) (r : AnalysisRow) : AnalysisRow :=
  { r with
    company_name := match d.company_name with | some (some v) => v | _ => r.company_name,
    category := match d.category with | some v => v | none => r.category,
    business_description :=
      match d.business_description with | some v => v | none => r.business_description,
    industry_sector := match d.industry_sector with | some v => v | none => r.industry_sector,
    keywords := match d.keywords with | some v => v | none => r.keywords }

/-- The row mapping performed by the UPDATE when it does not violate the
NOT NULL constraint: sets `status='done'`, `result`, `error` and a fresh
`updated_at` on the matching row, then the supplied keys of `data`. -/
def applyTerminalUpdate (s : Store) (h : String) (result error : Option String)
    (d : UpdateData) (now : Int) : Store :=
  List.map (fun r => if r.hostname = h then
    applyUpdateData d
      { r with status := "done", result := result, error := error, updated_at := now }
    else r) s

/-- `updateAnalysisResultWithData`: `UPDATE analyses SET status='done',
result=?, error=?, updated_at=?, <supplied keys> WHERE hostname = ?`. The
`company_name` column is declared `TEXT NOT NULL`, so when the SET clause
supplies NULL for it (`d.company_name = some none`) and the WHERE clause
matches a row, the statement throws a NOT NULL constraint error (the
message mirrors SQLite's text) instead of updating; with no matching row
the SET clause is never evaluated and nothing is written. -/
def updateAnalysisResultWithData (s : Store) (h : String) (result error : Option String)
    (d : UpdateData) (now : Int) : Except String Store :=
  if d.company_name = some none ∧ (getAnalysis s h).isSome then
    .error "NOT NULL constraint failed: analyses.company_name"
  else
    .ok (applyTerminalUpdate s h result error d now)

/-- `ANALYSIS_LIMIT = 5`. -/
def ANALYSIS_LIMIT : Nat := 5

/-- `ADMIN_USERNAMES`. -/
def ADMIN_USERNAMES : List String := ["janwilmake", "khushi_shelat"]

/-- `NEW_VERSION_DATE = 1757517150949` (the schema-epoch constant). -/
def NEW_VERSION_DATE : Int := 1757517150949

/-- `isAnalysisOld(createdAt)`: true when the record predates
`NEW_VERSION_DATE`, or when `now - createdAt` exceeds 14 days. The source
compares `diffInMs / 86400000 > 14` in floating point, which for integer
millisecond differences is exactly `diffInMs > 14 * 86400000`. -/
def isAnalysisOld (createdAt now : Int) : Bool :=
  if createdAt < NEW_VERSION_DATE then true
  else decide (now - createdAt > 14 * (1000 * 60 * 60 * 24))

/-- Strip a leading `http://` or `https://` (`replace(/^https?:\/\//, "")`). -/
def stripScheme (s : String) : String :=
  if strStartsWith "https://" s then strDropN s 8
  else if strStartsWith "http://" s then strDropN s 7
  else s

/-- Strip a leading `www.` (`replace(/^www\./, "")`). -/
def stripWww (s : String) : String :=
  if strStartsWith "www." s then strDropN s 4 else s

/-- Index of the last `'.'` in the list, as in `String.lastIndexOf`. -/
def lastDotIdx : List Char → Option Nat
  | [] => none
  | c :: rest =>
    match lastDotIdx rest with
    | some i => some (i + 1)
    | none => if c = '.' then some 0 else none

/-- Drop everything from the last dot on, when `lastIndexOf(".") > 0`. -/
def dropTld (s : String) : String :=
  match lastDotIdx s.data with
  | some i => if 0 < i then ⟨s.data.take i⟩ else s
  | none => s

/-- `word.charAt(0).toUpperCase() + word.slice(1)`. -/
def capitalizeWord (w : List Char) : List Char :=
  match w with
  | [] => []
  | c :: rest => c.toUpper :: rest

/-- `getCompanyName(domain)`: strip scheme and `www.`, drop the TLD, then
capitalize the dot-separated words and join them with spaces. -/
def getCompanyName (domain : String) : String :=
  let base := dropTld (stripWww (stripScheme domain))
  String.intercalate " " ((splitOnChar '.' base.data).map (fun w => ⟨capitalizeWord w⟩))

/-- JS falsiness of a nullable DB string (`!row.error` is true both for
NULL and for the empty string). -/
def jsStrFalsy (o : Option String) : Bool := (o.getD "") == ""

/-- `verifyWebhookSignature(secret, webhookId, webhookTimestamp, body,
signatureHeader)`: split the header on spaces; for each part starting with
`v1,`, compare the rest of the part against the base64 HMAC-SHA256 of
`{id}.{timestamp}.{body}` under the secret; accept on any match. The keyed
hash is the oracle `hmac secret payload`. -/
def verifyWebhookSignature (hmac : String → String → String) (secret webhookId
    webhookTimestamp body signatureHeader : String) : Bool :=
  (strSplitSpace signatureHeader).any (fun part =>
    strStartsWith "v1," part &&
      strDropN part 3 == hmac secret (webhookId ++ "." ++ webhookTimestamp ++ "." ++ body))

/-- The metadata attached to a task run by `performAnalysis` and echoed
back on the webhook: `{ hostname, isDeep, username, profile_image_url }`. -/
structure Metadata where
  hostname : Option String
  isDeep : Bool
  username : Option String
  profile_image_url : Option String
deriving DecidableEq, Repr

/-- `result.output` of a fetched task run: its `type` tag and its JSON
`content` object (absent when the run produced none). -/
structure TaskOutput where
  otype : String
  content : Option (List (String × JVal))

/-- A fetched task-run result: `result.output` plus `result.run.metadata`. -/
structure TaskResult where
  output : TaskOutput
  run_metadata : Option Metadata

/-- `JSON.stringify(result)` for the fetched result, as stored into the
`result` column. -/
def serializeResult (t : TaskResult) : String :=
  let meta : JVal := match t.run_metadata with
    | none => JVal.null
    | some m => JVal.obj
        [("hostname", match m.hostname with | some h => JVal.str h | none => JVal.null),
         ("isDeep", JVal.bool m.isDeep),
         ("username", match m.username with | some u => JVal.str u | none => JVal.null),
         ("profile_image_url",
          match m.profile_image_url with | some p => JVal.str p | none => JVal.null)]
  let content : JVal := match t.output.content with
    | none => JVal.null
    | some kvs => JVal.obj kvs
  serializeJVal (JVal.obj
    [("run", JVal.obj [("metadata", meta)]),
     ("output", JVal.obj [("type", JVal.str t.output.otype), ("content", content)])])

/-- `analysisData.company_fits_criteria === false` where `analysisData =
result.output?.content || {}`. -/
def companyFitsFalse (content : Option (List (String × JVal))) : Bool :=
  match List.lookup "company_fits_criteria" (content.getD []) with
  | some (JVal.bool false) => true
  | _ => false

/-- `result.output.content ? !!Object.values(content).find(x => x === "") :
true` — note that `find` returns the matching element itself, so when a
top-level empty string is found the result of `!!` is `!!""`, i.e. false. -/
def hasEmptyString (content : Option (List (String × JVal))) : Bool :=
  match content with
  | none => true
  | some kvs =>
    match List.find? isEmptyStrVal (kvs.map Prod.snd) with
    | some v => jsTruthy v
    | none => false

/-- `result.output.content?.competitors?.map(c => c.hostname).filter(Boolean)`:
the non-empty `hostname` strings of the entries of the `competitors` array
(entries without a string hostname are dropped by `filter(Boolean)`). -/
def competitorHostnames (content : Option (List (String × JVal))) : List String :=
  match content with
  | none => []
  | some kvs =>
    match List.lookup "competitors" kvs with
    | some (JVal.arr items) =>
      items.filterMap (fun item =>
        match item with
        | JVal.obj fields =>
          match List.lookup "hostname" fields with
          | some (JVal.str h) => if h = "" then none else some h
          | _ => none
        | _ => none)
    | _ => []

/-- `analysisData.k || null` for the string-valued schema field `k`
(the task output schema makes these fields strings when present). -/
def jsStrField (content : Option (List (String × JVal))) (k : String) : Option String :=
  match List.lookup k (content.getD []) with
  | some (JVal.str v) => if v = "" then none else some v
  | _ => none

/-- The `updateData` object built in `handleWebhook`: all five keys are
always supplied, with `null` standing in for an absent or falsy payload
field. -/
def mkUpdateData (content : Option (List (String × JVal))) : UpdateData :=
  { company_name := some (jsStrField content "company_name"),
    category := some (jsStrField content "category"),
    business_description := some (jsStrField content "business_description"),
    industry_sector := some (jsStrField content "industry_sector"),
    keywords := some (jsStrField content "keywords") }

/-- The metadata of a job submitted through `performAnalysis` (used to
observe which competitor submissions a webhook delivery issues). -/
structure Submission where
  hostname : String
  isDeep : Bool
  username : Option String
  profile_image_url : Option String
deriving DecidableEq, Repr

/-- The `pending` row inserted by `performAnalysis` after a successful
task submission. -/
def pendingRow (hostname : String) (username profile_image_url : Option String)
    (now : Int) : AnalysisRow :=
  { hostname := hostname
    company_domain := hostname
    company_name := getCompanyName hostname
    status := "pending"
    username := username.getD ""
    profile_image_url := profile_image_url.getD ""
    created_at := now
    updated_at := now
    visits := 0
    result := none
    error := none
    category := none
    business_description := none
    industry_sector := none
    keywords := none }

/-- `performAnalysis`: submit the task (the oracle `submit` models
`parallel.beta.taskRun.create`, `.error` a thrown submission failure); on
success insert the `pending` record. No record is created when the
submission throws. -/
def performAnalysis (submit : String → Except String Unit) (s : Store)
    (hostname : String) (isDeep : Bool) (username profile_image_url : Option String)
    (now : Int) : Except String (Store × Submission) :=
  match submit hostname with
  | .error e => .error e
  | .ok _ => .ok (createAnalysis s (pendingRow hostname username profile_image_url now),
      { hostname := hostname, isDeep := isDeep, username := username,
        profile_image_url := profile_image_url })

/-- One step of the competitor fan-out in `handleWebhook`: skip when an
existing record has a falsy `error` and a fresh `updated_at`; otherwise
submit a non-deep job. A failed submission is recorded as the (first)
rejection that `Promise.all` propagates; the other closures still run. -/
def fanOutStep (submit : String → Except String Unit) (now : Int) (meta : Metadata)
    (acc : Store × List Submission × Option String) (h : String) :
    Store × List Submission × Option String :=
  let s := acc.1
  let skip : Bool :=
    match getAnalysis s h with
    | some ex => jsStrFalsy ex.error && !isAnalysisOld ex.updated_at now
    | none => false
  if skip then acc
  else
    match performAnalysis submit s h false meta.username meta.profile_image_url now with
    | .ok (s2, sub) => (s2, acc.2.1 ++ [sub], acc.2.2)
    | .error e => (s, acc.2.1, acc.2.2 <|> some e)

/-- `await Promise.all(hostnames.map(...))` over the discovered competitor
hostnames (the Durable Object serializes the storage accesses; the model
runs the closures in list order). -/
def runFanOut (submit : String → Except String Unit) (now : Int) (meta : Metadata)
    (s : Store) (hs : List String) : Store × List Submission × Option String :=
  hs.foldl (fanOutStep submit now meta) (s, [], none)

/-- `result.run.metadata?.isDeep` as a JS truthiness test. -/
def jsIsDeep (m : Option Metadata) : Bool :=
  match m with
  | some md => md.isDeep
  | none => false

/-- The `status === "completed"` branch of `handleWebhook`, after signature
verification: fetch the result (`fetch`), run the quality gates in source
order, fan out over competitors when the originating job was deep, and
terminalize the record for `hostname`. A fan-out submission failure rejects
the awaited `Promise.all`, so control reaches the catch block: the parent
is terminalized with `"Error fetching result: ..."` and the success update
is skipped. The success update itself (`updateAnalysisResultWithData`,
awaited inside the try block) throws the NOT NULL constraint error when the
payload supplied no usable `company_name`; that rejection also lands in the
catch block, which terminalizes the record with `"Error fetching result: "
++ error.message` and discards the result blob. Returns the new store and
the submissions issued. -/
def handleCompleted (submit : String → Except String Unit)
    (fetch : Except String TaskResult) (hostname : String) (s : Store) (now : Int) :
    Store × List Submission :=
  match fetch with
  | .error msg =>
    (updateAnalysisResult s hostname none (some ("Error fetching result: " ++ msg)) now, [])
  | .ok result =>
    let content := result.output.content
    if companyFitsFalse content then
      (updateAnalysisResult s hostname none
        (some ("This domain does not appear to be an active company with real products " ++
          "or services. Please try a different company.")) now, [])
    else if result.output.otype != "json" then
      (updateAnalysisResult s hostname none (some "Unexpected output format") now, [])
    else if hasEmptyString content then
      (updateAnalysisResult s hostname (some (serializeResult result))
        (some ("Could not complete task - outputs contained empty strings. " ++
          "Please try again.")) now, [])
    else
      let hs := competitorHostnames content
      if jsIsDeep result.run_metadata && !hs.isEmpty then
        let meta := (result.run_metadata).getD
          { hostname := none, isDeep := false, username := none, profile_image_url := none }
        let out := runFanOut submit now meta s hs
        match out.2.2 with
        | some e =>
          (updateAnalysisResult out.1 hostname none
            (some ("Error fetching result: " ++ e)) now, out.2.1)
        | none =>
          match updateAnalysisResultWithData out.1 hostname (some (serializeResult result))
              none (mkUpdateData content) now with
          | .ok s2 => (s2, out.2.1)
          | .error e =>
            (updateAnalysisResult out.1 hostname none
              (some ("Error fetching result: " ++ e)) now, out.2.1)
      else
        match updateAnalysisResultWithData s hostname (some (serializeResult result)) none
            (mkUpdateData content) now with
        | .ok s2 => (s2, [])
        | .error e =>
          (updateAnalysisResult s hostname none
            (some ("Error fetching result: " ++ e)) now, [])

/-- The parsed body of a webhook delivery:
`{type, data: {status, run_id, metadata, error}}`. -/
structure WebhookPayload where
  ptype : String
  status : String
  run_id : String
  metadata : Option Metadata
  error_message : Option String
deriving Repr

/-- JS `o?.hostname` followed by a truthiness test (`if (!hostname)`):
an absent metadata object, an absent hostname and an empty-string hostname
all count as missing. -/
def metadataHostname (m : Option Metadata) : Option String :=
  match m with
  | some md => match md.hostname with
    | some h => if h = "" then none else some h
    | none => none
  | none => none

/-- `payload.data.error?.message || "Analysis failed"`. -/
def jsOrDefault (o : Option String) (d : String) : String :=
  match o with
  | some s => if s = "" then d else s
  | none => d

/-- `handleWebhook`: method check, required-header check (JS falsiness, so
an empty header string is also missing), signature verification over the
raw body, then the status-event processing. `payload` is the `JSON.parse`
of `body`; `fetch` and `submit` are the external-service oracles. Returns
`(HTTP status, new store, submissions issued)`. -/
def handleWebhook (hmac : String → String → String) (secret : String)
    (method : String) (webhookId webhookTimestamp webhookSignature : Option String)
    (body : String) (payload : WebhookPayload) (fetch : Except String TaskResult)
    (submit : String → Except String Unit) (s : Store) (now : Int) :
    Nat × Store × List Submission :=
  if method != "POST" then (405, s, [])
  else if jsStrFalsy webhookId || jsStrFalsy webhookTimestamp ||
      jsStrFalsy webhookSignature then (400, s, [])
  else if !verifyWebhookSignature hmac secret (webhookId.getD "") (webhookTimestamp.getD "")
      body (webhookSignature.getD "") then (401, s, [])
  else if payload.ptype == "task_run.status" && payload.status == "completed" then
    match metadataHostname payload.metadata with
    | none => (400, s, [])
    | some h =>
      let out := handleCompleted submit fetch h s now
      (200, out.1, out.2)
  else if payload.ptype == "task_run.status" && payload.status == "failed" then
    match metadataHostname payload.metadata with
    | some h =>
      (200, updateAnalysisResult s h none
        (some (jsOrDefault payload.error_message "Analysis failed")) now, [])
    | none => (200, s, [])
  else (200, s, [])

/-- `handleNew`: missing/empty `company` → 400; an existing record is
deleted when stale (authenticated caller) or errored (any caller), else the
caller is redirected to it; then DNS validation (oracle `valid`,
400), the auth gate (401), the per-user quota with the admin allow-list
(429), and finally the deep submission (302 on success, 500 on a thrown
submission). Returns `(HTTP status, new store, submissions issued)`. -/
def handleNew (valid : String → Bool) (submit : String → Except String Unit)
    (authenticated : Bool) (username profile_image_url : Option String)
    (company : Option String) (s : Store) (now : Int) : Nat × Store × List Submission :=
  match company with
  | none => (400, s, [])
  | some c =>
    if (strTrim c).data.isEmpty then (400, s, [])
    else
      let hostname := strLower (strTrim c)
      let cleaned : Store × Bool :=
        match getAnalysis s hostname with
        | some ex =>
          if isAnalysisOld ex.created_at now && authenticated then
            (deleteAnalysis s hostname, false)
          else if !jsStrFalsy ex.error then (deleteAnalysis s hostname, false)
          else (s, true)
        | none => (s, false)
      if cleaned.2 then (302, s, [])
      else if !valid hostname then (400, cleaned.1, [])
      else if !authenticated then (401, cleaned.1, [])
      else
        let count := match username with
          | some u => getUserAnalysisCount cleaned.1 u
          | none => 0
        if decide (ANALYSIS_LIMIT ≤ count) && !(ADMIN_USERNAMES.contains (username.getD ""))
        then (429, cleaned.1, [])
        else
          match performAnalysis submit cleaned.1 hostname true username profile_image_url now with
          | .ok (s2, sub) => (302, s2, [sub])
          | .error _ => (500, cleaned.1, [])

/-- Search rank from the `ORDER BY CASE` of `searchAnalyses`: 1 exact
hostname, 2 exact company name, 3 hostname prefix, 4 company-name prefix,
5 any other match. -/
def searchRank (q : String) (r : AnalysisRow) : Nat :=
  if strLower r.hostname = q then 1
  else if strLower r.company_name = q then 2
  else if strStartsWith q (strLower r.hostname) then 3
  else if strStartsWith q (strLower r.company_name) then 4
  else 5

/-- `LOWER(col) LIKE '%q%'` for a nullable column (NULL never matches). -/
def optLike (field : Option String) (q : String) : Bool :=
  match field with
  | some v => strContains (strLower v) q
  | none => false

/-- The WHERE clause of `searchAnalyses`: substring match on hostname,
company name, category, industry sector or keywords. -/
def searchMatch (q : String) (r : AnalysisRow) : Bool :=
  strContains (strLower r.hostname) q || strContains (strLower r.company_name) q ||
  optLike r.category q || optLike r.industry_sector q || optLike r.keywords q

/-- `ORDER BY rank, visits DESC, created_at DESC` as a boolean total
order. -/
def searchLe (q : String) (a b : AnalysisRow) : Bool :=
  decide (searchRank q a < searchRank q b ∨
    (searchRank q a = searchRank q b ∧
      (b.visits < a.visits ∨ (a.visits = b.visits ∧ b.created_at ≤ a.created_at))))

/-- `LIMIT 50`. -/
def SEARCH_LIMIT : Nat := 50

/-- Ordered insertion for the stable sort realizing SQL `ORDER BY`. -/
def insertLe (le : AnalysisRow → AnalysisRow → Bool) (a : AnalysisRow) :
    List AnalysisRow → List AnalysisRow
  | [] => [a]
  | b :: bs => if le a b then a :: b :: bs else b :: insertLe le a bs

/-- Stable insertion sort realizing SQL `ORDER BY` for a total boolean
order (SQL leaves the order of fully-tied rows unspecified; the model picks
the stable one). -/
def sortByLe (le : AnalysisRow → AnalysisRow → Bool) : List AnalysisRow → List AnalysisRow
  | [] => []
  | a :: as => insertLe le a (sortByLe le as)

/-- `searchAnalyses(query)`: lowercase the query, filter by the WHERE
clause, order by the CASE rank with visits and creation date as
tie-breakers, and cap at 50 rows. -/
def searchAnalyses (s : Store) (query : String) : List AnalysisRow :=
  let q := strLower query
  (sortByLe (searchLe q) (List.filter (searchMatch q) s)).take SEARCH_LIMIT

/-! ## General lemmas about the string and list helpers -/

theorem containsChars_self (l : List Char) : containsChars l l = true := by
  cases l with
  | nil => rfl
  | cons c rest =>
    unfold containsChars
    rw [Bool.or_eq_true, List.isPrefixOf_iff_prefix]
    exact Or.inl (List.prefix_refl _)

theorem splitOnChar_of_not_mem (sep : Char) (l : List Char) (h : sep ∉ l) :
    splitOnChar sep l = [l] := by
  induction l with
  | nil => rfl
  | cons c rest ih =>
    have hc : ¬ c = sep := fun he => h (he ▸ List.mem_cons_self c rest)
    have hr : sep ∉ rest := fun hm => h (List.mem_cons_of_mem c hm)
    unfold splitOnChar
    rw [ih hr]
    simp [hc]

theorem strSplitSpace_single (s : String) (h : ' ' ∉ s.data) :
    strSplitSpace s = [s] := by
  unfold strSplitSpace
  rw [splitOnChar_of_not_mem ' ' s.data h]
  rfl

theorem v1_candidate_iff (part e : String) :
    (strStartsWith "v1," part && (strDropN part 3 == e)) = true ↔ part = "v1," ++ e := by
  cases part with
  | mk pl =>
    cases e with
    | mk el =>
      constructor
      · intro h
        simp only [Bool.and_eq_true] at h
        obtain ⟨h1, h2⟩ := h
        rw [strStartsWith, List.isPrefixOf_iff_prefix] at h1
        obtain ⟨t, ht⟩ := h1
        have hdrop : (strDropN ⟨pl⟩ 3) = (⟨t⟩ : String) := by
          rw [strDropN, ← ht]
          rfl
        have h2e : strDropN ⟨pl⟩ 3 = (⟨el⟩ : String) := beq_iff_eq.mp h2
        have htl : t = el := by
          have hde := congrArg String.data (hdrop.symm.trans h2e)
          exact hde
        show (⟨pl⟩ : String) = String.mk ("v1,".data ++ el)
        have hpl : pl = "v1,".data ++ el := by
          rw [← htl]
          exact ht.symm
        rw [hpl]
      · intro h
        have hd : pl = "v1,".data ++ el := congrArg String.data h
        subst hd
        simp only [Bool.and_eq_true]
        constructor
        · rw [strStartsWith, List.isPrefixOf_iff_prefix]
          exact ⟨el, rfl⟩
        · exact beq_iff_eq.mpr rfl

theorem verifyWebhookSignature_iff (hmac : String → String → String)
    (secret wid wts body sigHeader : String) :
    verifyWebhookSignature hmac secret wid wts body sigHeader = true ↔
      ("v1," ++ hmac secret (wid ++ "." ++ wts ++ "." ++ body)) ∈ strSplitSpace sigHeader := by
  unfold verifyWebhookSignature
  rw [List.any_eq_true]
  constructor
  · rintro ⟨part, hmem, hp⟩
    exact (v1_candidate_iff part _).mp hp ▸ hmem
  · intro hmem
    exact ⟨_, hmem, (v1_candidate_iff _ _).mpr rfl⟩

theorem string_append_left_cancel (p a b : String) (h : p ++ a = p ++ b) : a = b := by
  cases p with
  | mk pd =>
    cases a with
    | mk ad =>
      cases b with
      | mk bd =>
        have hd : pd ++ ad = pd ++ bd := congrArg String.data h
        have : ad = bd := List.append_cancel_left hd
        rw [this]

theorem v1_append_ne_empty (x : String) : ("v1," ++ x) ≠ "" := by
  intro h
  have hd : "v1,".data ++ x.data = ([] : List Char) := congrArg String.data h
  simp at hd

/-! ## C6 — staleness policy -/

/-- C6: `isAnalysisOld` holds exactly when the creation time predates the
schema epoch `NEW_VERSION_DATE` or lies more than 14 days before `now`; in
particular a pre-epoch record is stale even when created within the last 14
days, a post-epoch record older than 14 days is stale, and a record within
both bounds is not stale. -/
theorem C6_staleness_policy (createdAt now : Int) :
    (isAnalysisOld createdAt now = true ↔
      createdAt < NEW_VERSION_DATE ∨ now - createdAt > 14 * (1000 * 60 * 60 * 24)) ∧
    (createdAt < NEW_VERSION_DATE → now - createdAt ≤ 14 * (1000 * 60 * 60 * 24) →
      isAnalysisOld createdAt now = true) ∧
    (NEW_VERSION_DATE ≤ createdAt → now - createdAt > 14 * (1000 * 60 * 60 * 24) →
      isAnalysisOld createdAt now = true) ∧
    (NEW_VERSION_DATE ≤ createdAt → now - createdAt ≤ 14 * (1000 * 60 * 60 * 24) →
      isAnalysisOld createdAt now = false) := by
  unfold isAnalysisOld
  refine ⟨?_, ?_, ?_, ?_⟩ <;> split <;> simp_all <;> omega

/-- Witness for C6 at concrete times: one millisecond before the epoch is
stale even though recent; the epoch instant plus 14 days exactly is not
stale; 14 days and 1 ms is stale. -/
theorem C6_staleness_policy_witness :
    isAnalysisOld (NEW_VERSION_DATE - 1) NEW_VERSION_DATE = true ∧
    isAnalysisOld NEW_VERSION_DATE (NEW_VERSION_DATE + 14 * 86400000) = false ∧
    isAnalysisOld NEW_VERSION_DATE (NEW_VERSION_DATE + 14 * 86400000 + 1) = true := by
  refine ⟨(C6_staleness_policy _ _).2.1 (by decide) (by decide),
    (C6_staleness_policy _ _).2.2.2 (by decide) (by decide),
    (C6_staleness_policy _ _).2.2.1 (by decide) (by decide)⟩

/-! ## C5 — the empty-string quality gate -/

/-- The content of the C5 failing input: a completed result whose
`business_description` output field (a nullable column) is the empty
string. -/
def c5content : List (String × JVal) :=
  [("company_name", JVal.str "Acme"),
   ("business_description", JVal.str ""),
   ("competitors", JVal.arr [JVal.obj [("hostname", JVal.str "a.com")]])]

/-- The fetched task result of the C5 failing input. -/
def c5result : TaskResult :=
  { output := { otype := "json", content := some c5content },
    run_metadata := some { hostname := some "p.com", isDeep := false,
                           username := some "u", profile_image_url := none } }

/-- A second failing input whose empty-string field is `company_name`
itself (the NOT NULL column). -/
def c5cncontent : List (String × JVal) :=
  [("company_name", JVal.str ""),
   ("competitors", JVal.arr [JVal.obj [("hostname", JVal.str "a.com")]])]

/-- The fetched task result of the second C5 failing input. -/
def c5cnresult : TaskResult :=
  { output := { otype := "json", content := some c5cncontent },
    run_metadata := some { hostname := some "p.com", isDeep := false,
                           username := some "u", profile_image_url := none } }

/-- C5: the empty-string data-quality gate is dead code. The source
computes `!!Object.values(content).find(x => x === "")`; when a top-level
empty string exists, `find` returns that empty string, which is falsy, so
the gate never fires for any present content object (first conjunct). At
the first failing input — a completed result whose `business_description`
is the empty string — the record is terminalized as a success
(`status = done`, `error = null`, result blob stored) instead of the
"outputs contained empty strings" terminal error that the spec describes
(second conjunct). At the second failing input — `company_name` the empty
string — the gate again does not fire; instead `updateData` maps the falsy
field to NULL, the terminal UPDATE throws the NOT NULL constraint error on
the `company_name` column, and the catch block terminalizes the record
with `error = "Error fetching result: ..."` and `result = NULL` — still
not the empty-strings terminal error the spec describes (third
conjunct). -/
theorem C5_empty_string_gate_dead :
    (∀ kvs : List (String × JVal), hasEmptyString (some kvs) = false) ∧
    (getAnalysis (handleCompleted (fun _ => .ok ()) (.ok c5result)
        "p.com" [pendingRow "p.com" (some "u") none NEW_VERSION_DATE]
        NEW_VERSION_DATE).1 "p.com").map
      (fun r => (r.status, r.error, r.result.isSome)) = some ("done", none, true) ∧
    (getAnalysis (handleCompleted (fun _ => .ok ()) (.ok c5cnresult)
        "p.com" [pendingRow "p.com" (some "u") none NEW_VERSION_DATE]
        NEW_VERSION_DATE).1 "p.com").map
      (fun r => (r.status, r.error, r.result.isSome)) =
      some ("done",
        some "Error fetching result: NOT NULL constraint failed: analyses.company_name",
        false) := by
  refine ⟨?_, ?_, ?_⟩
  · intro kvs
    show (match List.find? isEmptyStrVal (kvs.map Prod.snd) with
          | some v => jsTruthy v
          | none => false) = false
    cases hfind : List.find? isEmptyStrVal (kvs.map Prod.snd) with
    | none => rfl
    | some v =>
      have hp := List.find?_some hfind
      cases v with
      | str sv =>
        have hs : sv = "" := by simpa [isEmptyStrVal] using hp
        subst hs
        rfl
      | null => simp [isEmptyStrVal] at hp
      | bool b => simp [isEmptyStrVal] at hp
      | num n => simp [isEmptyStrVal] at hp
      | arr xs => simp [isEmptyStrVal] at hp
      | obj kvs2 => simp [isEmptyStrVal] at hp
  · decide
  · decide

/-! ## C3 — webhook signature verification -/

/-- C3: a request passes `verifyWebhookSignature` iff some space-separated
candidate of the signature header is exactly `v1,` followed by the keyed
hash of `{id}.{timestamp}.{raw body}` (first conjunct); a body tampered
after signing, presented with the signature computed over the original
body, is rejected with 401 and no store change and no submissions (second
conjunct, under the hypothesis that the keyed hash separates the two
bodies); the same tampered body with a signature recomputed over it passes
verification (third conjunct); and a request missing any of the three
webhook headers is rejected with 400 and no store change (fourth
conjunct). -/
theorem C3_webhook_signature (hmac : String → String → String)
    (secret wid wts body tampered : String)
    (payload : WebhookPayload) (fetch : Except String TaskResult)
    (submit : String → Except String Unit) (s : Store) (now : Int)
    (hwid : wid ≠ "") (hwts : wts ≠ "")
    (hsp1 : ' ' ∉ (hmac secret (wid ++ "." ++ wts ++ "." ++ body)).data)
    (hsp2 : ' ' ∉ (hmac secret (wid ++ "." ++ wts ++ "." ++ tampered)).data)
    (hneq : hmac secret (wid ++ "." ++ wts ++ "." ++ tampered) ≠
      hmac secret (wid ++ "." ++ wts ++ "." ++ body)) :
    (∀ sigHeader, verifyWebhookSignature hmac secret wid wts body sigHeader = true ↔
      ("v1," ++ hmac secret (wid ++ "." ++ wts ++ "." ++ body)) ∈ strSplitSpace sigHeader) ∧
    (handleWebhook hmac secret "POST" (some wid) (some wts)
      (some ("v1," ++ hmac secret (wid ++ "." ++ wts ++ "." ++ body))) tampered
      payload fetch submit s now = (401, s, [])) ∧
    (verifyWebhookSignature hmac secret wid wts tampered
      ("v1," ++ hmac secret (wid ++ "." ++ wts ++ "." ++ tampered)) = true) ∧
    (∀ wi wt wg : Option String, (jsStrFalsy wi || jsStrFalsy wt || jsStrFalsy wg) = true →
      handleWebhook hmac secret "POST" wi wt wg body payload fetch submit s now
        = (400, s, [])) := by
  have hv1sp : ' ' ∉ "v1,".data := by decide
  refine ⟨fun sigHeader => verifyWebhookSignature_iff hmac secret wid wts body sigHeader,
    ?_, ?_, ?_⟩
  · have hne : ("v1," ++ hmac secret (wid ++ "." ++ wts ++ "." ++ body)) ≠ "" :=
      v1_append_ne_empty _
    have hf1 : jsStrFalsy (some wid) = false := by
      simp [jsStrFalsy]
      exact hwid
    have hf2 : jsStrFalsy (some wts) = false := by
      simp [jsStrFalsy]
      exact hwts
    have hf3 : jsStrFalsy (some ("v1," ++ hmac secret (wid ++ "." ++ wts ++ "." ++ body)))
        = false := by
      simp [jsStrFalsy]
      exact hne
    have hspfull : ' ' ∉ ("v1," ++ hmac secret (wid ++ "." ++ wts ++ "." ++ body)).data := by
      intro hm
      have hm2 : ' ' ∈ "v1,".data ++ (hmac secret (wid ++ "." ++ wts ++ "." ++ body)).data := hm
      rcases List.mem_append.mp hm2 with h | h
      · exact hv1sp h
      · exact hsp1 h
    have hver : verifyWebhookSignature hmac secret wid wts tampered
        ("v1," ++ hmac secret (wid ++ "." ++ wts ++ "." ++ body)) = false := by
      rw [Bool.eq_false_iff]
      intro htrue
      have hmem := (verifyWebhookSignature_iff hmac secret wid wts tampered _).mp htrue
      rw [strSplitSpace_single _ hspfull, List.mem_singleton] at hmem
      exact hneq (string_append_left_cancel "v1," _ _ hmem)
    simp [handleWebhook, hf1, hf2, hf3, hver]
  · rw [verifyWebhookSignature_iff]
    have hspfull : ' ' ∉ ("v1," ++ hmac secret (wid ++ "." ++ wts ++ "." ++ tampered)).data := by
      intro hm
      have hm2 : ' ' ∈ "v1,".data ++ (hmac secret (wid ++ "." ++ wts ++ "." ++ tampered)).data := hm
      rcases List.mem_append.mp hm2 with h | h
      · exact hv1sp h
      · exact hsp2 h
    rw [strSplitSpace_single _ hspfull, List.mem_singleton]
  · intro wi wt wg hmiss
    simp [handleWebhook, hmiss]

/-- Witness for C3 at a concrete keyed hash and concrete headers: the
tampered body is rejected with 401 and the store is untouched. -/
theorem C3_webhook_signature_witness :
    handleWebhook (fun _ p => "H" ++ p) "sec" "POST" (some "id") (some "ts")
      (some ("v1," ++ (fun (_ p : String) => "H" ++ p) "sec"
        ("id" ++ "." ++ "ts" ++ "." ++ "body")))
      "tampered"
      { ptype := "x", status := "y", run_id := "r", metadata := none, error_message := none }
      (.error "e") (fun _ => .ok ()) [] 0 = (401, [], []) :=
  (C3_webhook_signature (fun _ p => "H" ++ p) "sec" "id" "ts" "body" "tampered"
    { ptype := "x", status := "y", run_id := "r", metadata := none, error_message := none }
    (.error "e") (fun _ => .ok ()) [] 0 (by decide) (by decide) (by decide) (by decide)
    (by decide)).2.1

/-! ## Sorting lemmas for the search ORDER BY -/

theorem insertLe_perm (le : AnalysisRow → AnalysisRow → Bool) (a : AnalysisRow)
    (l : List AnalysisRow) : (insertLe le a l).Perm (a :: l) := by
  induction l with
  | nil => exact List.Perm.refl _
  | cons b bs ih =>
    unfold insertLe
    cases hle : le a b
    · show (b :: insertLe le a bs).Perm (a :: b :: bs)
      exact (ih.cons b).trans (List.Perm.swap a b bs)
    · show (a :: b :: bs).Perm (a :: b :: bs)
      exact List.Perm.refl _

theorem sortByLe_perm (le : AnalysisRow → AnalysisRow → Bool) (l : List AnalysisRow) :
    (sortByLe le l).Perm l := by
  induction l with
  | nil => exact List.Perm.refl _
  | cons a as ih => exact (insertLe_perm le a (sortByLe le as)).trans (ih.cons a)

theorem pairwise_insertLe (le : AnalysisRow → AnalysisRow → Bool)
    (htot : ∀ x y, le x y = true ∨ le y x = true)
    (htrans : ∀ x y z, le x y = true → le y z = true → le x z = true)
    (a : AnalysisRow) (l : List AnalysisRow)
    (hl : l.Pairwise (fun x y => le x y = true)) :
    (insertLe le a l).Pairwise (fun x y => le x y = true) := by
  induction l with
  | nil => simp [insertLe]
  | cons b bs ih =>
    rw [List.pairwise_cons] at hl
    obtain ⟨hb, hbs⟩ := hl
    unfold insertLe
    cases hle : le a b
    · show (b :: insertLe le a bs).Pairwise (fun x y => le x y = true)
      rw [List.pairwise_cons]
      constructor
      · intro y hy
        have hmem := (insertLe_perm le a bs).mem_iff.mp hy
        rcases List.mem_cons.mp hmem with rfl | hy2
        · rcases htot y b with h | h
          · rw [hle] at h
            cases h
          · exact h
        · exact hb y hy2
      · exact ih hbs
    · show (a :: b :: bs).Pairwise (fun x y => le x y = true)
      rw [List.pairwise_cons]
      constructor
      · intro y hy
        rcases List.mem_cons.mp hy with rfl | hy2
        · exact hle
        · exact htrans a b y hle (hb y hy2)
      · exact List.pairwise_cons.mpr ⟨hb, hbs⟩

theorem pairwise_sortByLe (le : AnalysisRow → AnalysisRow → Bool)
    (htot : ∀ x y, le x y = true ∨ le y x = true)
    (htrans : ∀ x y z, le x y = true → le y z = true → le x z = true)
    (l : List AnalysisRow) :
    (sortByLe le l).Pairwise (fun x y => le x y = true) := by
  induction l with
  | nil => simp [sortByLe]
  | cons a as ih => exact pairwise_insertLe le htot htrans a _ ih

theorem searchLe_total (q : String) (a b : AnalysisRow) :
    searchLe q a b = true ∨ searchLe q b a = true := by
  simp only [searchLe, decide_eq_true_eq]
  omega

theorem searchLe_trans (q : String) (a b c : AnalysisRow)
    (h1 : searchLe q a b = true) (h2 : searchLe q b c = true) : searchLe q a c = true := by
  simp only [searchLe, decide_eq_true_eq] at h1 h2 ⊢
  omega

theorem searchLe_rank_le (q : String) (a b : AnalysisRow) (h : searchLe q a b = true) :
    searchRank q a ≤ searchRank q b := by
  simp only [searchLe, decide_eq_true_eq] at h
  omega

theorem searchRank_ge_one (q : String) (r : AnalysisRow) : 1 ≤ searchRank q r := by
  unfold searchRank
  split
  · omega
  · split
    · omega
    · split
      · omega
      · split <;> omega

theorem searchRank_eq_one (q : String) (r : AnalysisRow) (h : searchRank q r = 1) :
    strLower r.hostname = q := by
  unfold searchRank at h
  split at h
  · assumption
  · split at h
    · omega
    · split at h
      · omega
      · split at h <;> omega

/-! ## C9 — search ranking -/

/-- C9: `searchAnalyses` returns at most 50 rows, ordered so that the CASE
rank never decreases (1 exact hostname match, 2 exact company-name match,
3 hostname prefix, 4 company-name prefix, 5 other substring match on
name/category/industry/keywords); and when the query is exactly the
hostname of a stored record and no other stored record has the same
lowercased hostname, that record is returned first — even when the query
also substring-matches other records (e.g. through their keywords). -/
theorem C9_search_ranking (s : Store) (query : String) (r : AnalysisRow)
    (hmem : r ∈ s) (hq : query = r.hostname)
    (huniq : ∀ r2 ∈ s, strLower r2.hostname = strLower query → r2 = r) :
    (searchAnalyses s query).length ≤ SEARCH_LIMIT ∧
    (searchAnalyses s query).Pairwise
      (fun a b => searchRank (strLower query) a ≤ searchRank (strLower query) b) ∧
    (searchAnalyses s query).head? = some r := by
  have hq2 : strLower r.hostname = strLower query := by rw [hq]
  have hmatch : searchMatch (strLower query) r = true := by
    unfold searchMatch
    have hc : strContains (strLower r.hostname) (strLower query) = true := by
      rw [← hq2]
      unfold strContains
      exact containsChars_self _
    rw [hc]
    rfl
  have hmemF : r ∈ List.filter (searchMatch (strLower query)) s :=
    List.mem_filter.mpr ⟨hmem, hmatch⟩
  have hperm := sortByLe_perm (searchLe (strLower query))
    (List.filter (searchMatch (strLower query)) s)
  have hmemL : r ∈ sortByLe (searchLe (strLower query))
      (List.filter (searchMatch (strLower query)) s) :=
    hperm.mem_iff.mpr hmemF
  have hpair := pairwise_sortByLe (searchLe (strLower query)) (searchLe_total _)
    (searchLe_trans _) (List.filter (searchMatch (strLower query)) s)
  have hdef : searchAnalyses s query = (sortByLe (searchLe (strLower query))
      (List.filter (searchMatch (strLower query)) s)).take SEARCH_LIMIT := rfl
  refine ⟨?_, ?_, ?_⟩
  · rw [hdef]
    exact List.length_take_le _ _
  · rw [hdef]
    exact List.Pairwise.sublist (List.take_sublist _ _)
      (hpair.imp (fun h => searchLe_rank_le _ _ _ h))
  · cases hLs : sortByLe (searchLe (strLower query))
        (List.filter (searchMatch (strLower query)) s) with
    | nil =>
      rw [hLs] at hmemL
      cases hmemL
    | cons x t =>
      rw [hLs] at hpair hmemL
      rw [List.pairwise_cons] at hpair
      obtain ⟨hxall, _⟩ := hpair
      have hxr : x = r := by
        rcases List.mem_cons.mp hmemL with h | h
        · exact h.symm
        · have hle := hxall r h
          have hrank_r : searchRank (strLower query) r = 1 := by
            unfold searchRank
            rw [if_pos hq2]
          have hxle1 : searchRank (strLower query) x ≤ 1 :=
            hrank_r ▸ searchLe_rank_le _ _ _ hle
          have h1 : searchRank (strLower query) x = 1 :=
            le_antisymm hxle1 (searchRank_ge_one _ _)
          have hxq := searchRank_eq_one _ _ h1
          have hxmemL : x ∈ sortByLe (searchLe (strLower query))
              (List.filter (searchMatch (strLower query)) s) := by
            rw [hLs]
            exact List.mem_cons_self x t
          have hxs : x ∈ s := (List.mem_filter.mp (hperm.mem_iff.mp hxmemL)).1
          exact huniq x hxs hxq
      rw [hdef, hLs, hxr]
      rfl

/-- Record whose keywords substring-match the C9 witness query. -/
def c9rowB : AnalysisRow :=
  { pendingRow "b.com" none none NEW_VERSION_DATE with keywords := some "a.com tools" }

/-- Record whose hostname is exactly the C9 witness query. -/
def c9rowA : AnalysisRow := pendingRow "a.com" none none NEW_VERSION_DATE

/-- Witness for C9: with an exact-hostname record listed after a record
that keyword-matches the query, the exact-hostname record is still
returned first. -/
theorem C9_search_ranking_witness :
    (searchAnalyses [c9rowB, c9rowA] "a.com").length ≤ SEARCH_LIMIT ∧
    (searchAnalyses [c9rowB, c9rowA] "a.com").Pairwise
      (fun a b => searchRank (strLower "a.com") a ≤ searchRank (strLower "a.com") b) ∧
    (searchAnalyses [c9rowB, c9rowA] "a.com").head? = some c9rowA :=
  C9_search_ranking [c9rowB, c9rowA] "a.com" c9rowA (by decide) (by decide) (by decide)

/-! ## C7 — failure responses of the /new handler -/

/-- Errored record used as the C7 counterexample store. -/
def c7row : AnalysisRow :=
  { pendingRow "x.com" (some "alice") none NEW_VERSION_DATE with error := some "boom" }

/-- C7 counterexample: an unauthenticated `/new` request for a hostname
whose existing record is errored ends in 401, yet the store was mutated —
the errored record was deleted by the resubmission cleanup, which runs
before the validation/auth/quota gates. The claim as stated (no record
created, modified or deleted on a 400/401/429 response) is therefore
false. -/
theorem C7_counterexample :
    handleNew (fun _ => true) (fun _ => .ok ()) false none none (some "x.com")
      [c7row] NEW_VERSION_DATE = (401, [], []) ∧ ([c7row] : Store) ≠ [] := by
  constructor
  · decide
  · decide

/-- C7 (amended): every `/new` request that ends in a synchronous failure
response — 400 for a missing or invalid domain, 401 for an unauthenticated
caller, 429 for an exhausted quota — issues no job submission and creates
no record; the store is left unchanged except that the resubmission
cleanup, which runs before those gates, may already have deleted the
existing record for the requested hostname when that record was errored
(any caller) or stale (authenticated caller). -/
theorem C7_failure_responses (valid : String → Bool) (submit : String → Except String Unit)
    (authenticated : Bool) (username profile_image_url : Option String)
    (company : Option String) (s : Store) (now : Int)
    (code : Nat) (s2 : Store) (subs : List Submission)
    (heq : handleNew valid submit authenticated username profile_image_url company s now
      = (code, s2, subs))
    (hcode : code = 400 ∨ code = 401 ∨ code = 429) :
    subs = [] ∧ (s2 = s ∨ ∃ c ex, company = some c ∧
      getAnalysis s (strLower (strTrim c)) = some ex ∧
      (jsStrFalsy ex.error = false ∨ (isAnalysisOld ex.created_at now && authenticated) = true) ∧
      s2 = deleteAnalysis s (strLower (strTrim c))) := by
  rcases company with _ | c
  · simp only [handleNew, Prod.mk.injEq] at heq
    obtain ⟨h1, h2, h3⟩ := heq
    exact ⟨h3.symm, Or.inl h2.symm⟩
  · by_cases htrim : (strTrim c).data.isEmpty
    · simp only [handleNew, htrim, if_true, Prod.mk.injEq] at heq
      obtain ⟨h1, h2, h3⟩ := heq
      exact ⟨h3.symm, Or.inl h2.symm⟩
    · rcases hga : getAnalysis s (strLower (strTrim c)) with _ | ex
      · rcases Bool.dichotomy (valid (strLower (strTrim c))) with hv | hv
        · simp only [handleNew, htrim, hga, hv, Bool.false_eq_true, if_false,
            Bool.not_false, if_true, Prod.mk.injEq] at heq
          obtain ⟨h1, h2, h3⟩ := heq
          exact ⟨h3.symm, Or.inl h2.symm⟩
        · rcases Bool.dichotomy authenticated with hauth | hauth
          · simp only [handleNew, htrim, hga, hv, hauth, Bool.false_eq_true, if_false,
              Bool.not_false, Bool.not_true, if_true, Prod.mk.injEq] at heq
            obtain ⟨h1, h2, h3⟩ := heq
            exact ⟨h3.symm, Or.inl h2.symm⟩
          · rcases username with _ | u
            · have hqt : (decide (ANALYSIS_LIMIT ≤ (0 : Nat)) &&
                  !(ADMIN_USERNAMES.contains ((none : Option String).getD ""))) = false := by
                decide
              obtain ⟨pres, hperf⟩ : ∃ o, performAnalysis submit s (strLower (strTrim c)) true
                  none profile_image_url now = o := ⟨_, rfl⟩
              rcases pres with e | v <;>
                · simp only [handleNew, htrim, hga, hv, hauth, hqt, hperf, Bool.false_eq_true,
                    if_false, Bool.not_false, Bool.not_true, if_true, Prod.mk.injEq] at heq
                  obtain ⟨h1, h2, h3⟩ := heq
                  rcases hcode with h | h | h <;> omega
            · rcases Bool.dichotomy (decide (ANALYSIS_LIMIT ≤ getUserAnalysisCount s u) &&
                  !(ADMIN_USERNAMES.contains ((some u : Option String).getD "")))
                with hqt | hqt
              · obtain ⟨pres, hperf⟩ : ∃ o, performAnalysis submit s (strLower (strTrim c))
                    true (some u) profile_image_url now = o := ⟨_, rfl⟩
                rcases pres with e | v <;>
                  · simp only [handleNew, htrim, hga, hv, hauth, hqt, hperf,
                      Bool.false_eq_true, if_false, Bool.not_false, Bool.not_true, if_true,
                      Prod.mk.injEq] at heq
                    obtain ⟨h1, h2, h3⟩ := heq
                    rcases hcode with h | h | h <;> omega
              · simp only [handleNew, htrim, hga, hv, hauth, hqt, Bool.false_eq_true,
                  if_false, Bool.not_false, Bool.not_true, if_true, Prod.mk.injEq] at heq
                obtain ⟨h1, h2, h3⟩ := heq
                exact ⟨h3.symm, Or.inl h2.symm⟩
      · rcases Bool.dichotomy authenticated with hauth | hauth
        · rcases Bool.dichotomy (jsStrFalsy ex.error) with herr | herr
          · rcases Bool.dichotomy (valid (strLower (strTrim c))) with hv | hv
            · simp only [handleNew, htrim, hga, hauth, herr, hv, Bool.and_false,
                Bool.false_eq_true, if_false, Bool.not_false, if_true, Prod.mk.injEq] at heq
              obtain ⟨h1, h2, h3⟩ := heq
              exact ⟨h3.symm, Or.inr ⟨c, ex, rfl, hga, Or.inl herr, h2.symm⟩⟩
            · simp only [handleNew, htrim, hga, hauth, herr, hv, Bool.and_false,
                Bool.false_eq_true, if_false, Bool.not_false, Bool.not_true, if_true,
                Prod.mk.injEq] at heq
              obtain ⟨h1, h2, h3⟩ := heq
              exact ⟨h3.symm, Or.inr ⟨c, ex, rfl, hga, Or.inl herr, h2.symm⟩⟩
          · simp only [handleNew, htrim, hga, hauth, herr, Bool.and_false,
              Bool.false_eq_true, if_false, Bool.not_true, Prod.mk.injEq] at heq
            obtain ⟨h1, h2, h3⟩ := heq
            rcases hcode with h | h | h <;> omega
        · rcases Bool.dichotomy (isAnalysisOld ex.created_at now) with hold | hold
          · rcases Bool.dichotomy (jsStrFalsy ex.error) with herr | herr
            · rcases Bool.dichotomy (valid (strLower (strTrim c))) with hv | hv
              · simp only [handleNew, htrim, hga, hauth, hold, herr, Bool.and_true,
                  Bool.false_eq_true, if_false, Bool.not_false, if_true,
                  hv, Prod.mk.injEq] at heq
                obtain ⟨h1, h2, h3⟩ := heq
                exact ⟨h3.symm, Or.inr ⟨c, ex, rfl, hga, Or.inl herr, h2.symm⟩⟩
              · rcases username with _ | u
                · have hqt : (decide (ANALYSIS_LIMIT ≤ (0 : Nat)) &&
                      !(ADMIN_USERNAMES.contains ((none : Option String).getD ""))) = false := by
                    decide
                  obtain ⟨pres, hperf⟩ : ∃ o, performAnalysis submit
                      (deleteAnalysis s (strLower (strTrim c))) (strLower (strTrim c)) true
                      none profile_image_url now = o := ⟨_, rfl⟩
                  rcases pres with e | v <;>
                    · simp only [handleNew, htrim, hga, hauth, hold, herr, Bool.and_true,
                        Bool.false_eq_true, if_false, Bool.not_false, Bool.not_true, if_true,
                        hv, hqt, hperf, Prod.mk.injEq] at heq
                      obtain ⟨h1, h2, h3⟩ := heq
                      rcases hcode with h | h | h <;> omega
                · rcases Bool.dichotomy (decide (ANALYSIS_LIMIT ≤
                      getUserAnalysisCount (deleteAnalysis s (strLower (strTrim c))) u) &&
                      !(ADMIN_USERNAMES.contains ((some u : Option String).getD "")))
                    with hqt | hqt
                  · obtain ⟨pres, hperf⟩ : ∃ o, performAnalysis submit
                        (deleteAnalysis s (strLower (strTrim c))) (strLower (strTrim c)) true
                        (some u) profile_image_url now = o := ⟨_, rfl⟩
                    rcases pres with e | v <;>
                      · simp only [handleNew, htrim, hga, hauth, hold, herr, Bool.and_true,
                          Bool.false_eq_true, if_false, Bool.not_false, Bool.not_true,
                          if_true, hv, hqt, hperf, Prod.mk.injEq] at heq
                        obtain ⟨h1, h2, h3⟩ := heq
                        rcases hcode with h | h | h <;> omega
                  · simp only [handleNew, htrim, hga, hauth, hold, herr, Bool.and_true,
                      Bool.false_eq_true, if_false, Bool.not_false, Bool.not_true, if_true,
                      hv, hqt, Prod.mk.injEq] at heq
                    obtain ⟨h1, h2, h3⟩ := heq
                    exact ⟨h3.symm, Or.inr ⟨c, ex, rfl, hga, Or.inl herr, h2.symm⟩⟩
            · simp only [handleNew, htrim, hga, hauth, hold, herr, Bool.and_true,
                Bool.false_eq_true, if_false, Bool.not_true, Prod.mk.injEq] at heq
              obtain ⟨h1, h2, h3⟩ := heq
              rcases hcode with h | h | h <;> omega
          · have holdc : (isAnalysisOld ex.created_at now && authenticated) = true := by
              rw [hold, hauth]
              exact rfl
            rcases Bool.dichotomy (valid (strLower (strTrim c))) with hv | hv
            · simp only [handleNew, htrim, hga, hauth, hold, Bool.and_true,
                Bool.false_eq_true, if_true, hv, if_false, Bool.not_false,
                Prod.mk.injEq] at heq
              obtain ⟨h1, h2, h3⟩ := heq
              exact ⟨h3.symm, Or.inr ⟨c, ex, rfl, hga, Or.inr holdc, h2.symm⟩⟩
            · rcases username with _ | u
              · have hqt : (decide (ANALYSIS_LIMIT ≤ (0 : Nat)) &&
                    !(ADMIN_USERNAMES.contains ((none : Option String).getD ""))) = false := by
                  decide
                obtain ⟨pres, hperf⟩ : ∃ o, performAnalysis submit
                    (deleteAnalysis s (strLower (strTrim c))) (strLower (strTrim c)) true
                    none profile_image_url now = o := ⟨_, rfl⟩
                rcases pres with e | v <;>
                  · simp only [handleNew, htrim, hga, hauth, hold, Bool.and_true, if_true, hv,
                      Bool.false_eq_true, if_false, Bool.not_false, Bool.not_true, hqt, hperf,
                      Prod.mk.injEq] at heq
                    obtain ⟨h1, h2, h3⟩ := heq
                    rcases hcode with h | h | h <;> omega
              · rcases Bool.dichotomy (decide (ANALYSIS_LIMIT ≤
                    getUserAnalysisCount (deleteAnalysis s (strLower (strTrim c))) u) &&
                    !(ADMIN_USERNAMES.contains ((some u : Option String).getD "")))
                  with hqt | hqt
                · obtain ⟨pres, hperf⟩ : ∃ o, performAnalysis submit
                      (deleteAnalysis s (strLower (strTrim c))) (strLower (strTrim c)) true
                      (some u) profile_image_url now = o := ⟨_, rfl⟩
                  rcases pres with e | v <;>
                    · simp only [handleNew, htrim, hga, hauth, hold, Bool.and_true, if_true,
                        hv, Bool.false_eq_true, if_false, Bool.not_false, Bool.not_true, hqt,
                        hperf, Prod.mk.injEq] at heq
                      obtain ⟨h1, h2, h3⟩ := heq
                      rcases hcode with h | h | h <;> omega
                · simp only [handleNew, htrim, hga, hauth, hold, Bool.and_true, if_true, hv,
                    Bool.false_eq_true, if_false, Bool.not_false, Bool.not_true, hqt,
                    Prod.mk.injEq] at heq
                  obtain ⟨h1, h2, h3⟩ := heq
                  exact ⟨h3.symm, Or.inr ⟨c, ex, rfl, hga, Or.inr holdc, h2.symm⟩⟩

/-- Witness for C7 (amended) at the counterexample input: the 401 response
issued no submission, and the store change is exactly the deletion of the
errored record. -/
theorem C7_failure_responses_witness :
    ([] : List Submission) = [] ∧ (([] : Store) = [c7row] ∨ ∃ c ex,
      (some "x.com" : Option String) = some c ∧
      getAnalysis [c7row] (strLower (strTrim c)) = some ex ∧
      (jsStrFalsy ex.error = false ∨
        (isAnalysisOld ex.created_at NEW_VERSION_DATE && false) = true) ∧
      ([] : Store) = deleteAnalysis [c7row] (strLower (strTrim c))) :=
  C7_failure_responses (fun _ => true) (fun _ => .ok ()) false none none (some "x.com")
    [c7row] NEW_VERSION_DATE 401 [] [] (by decide) (Or.inr (Or.inl rfl))

/-- A successful `updateAnalysisResultWithData` returns exactly the
constraint-respecting row mapping. -/
theorem updateWithData_ok_inv (s : Store) (h : String) (res err : Option String)
    (d : UpdateData) (now : Int) (s2 : Store)
    (hok : updateAnalysisResultWithData s h res err d now = Except.ok s2) :
    s2 = applyTerminalUpdate s h res err d now := by
  unfold updateAnalysisResultWithData at hok
  split at hok
  · cases hok
  · injection hok with h2
    exact h2.symm

/-- When the supplied extra fields do not write NULL into `company_name`,
the UPDATE does not throw. -/
theorem updateWithData_ok_of_cn (s : Store) (h : String) (res err : Option String)
    (d : UpdateData) (now : Int) (hcn : d.company_name ≠ some none) :
    updateAnalysisResultWithData s h res err d now =
      Except.ok (applyTerminalUpdate s h res err d now) := by
  unfold updateAnalysisResultWithData
  rw [if_neg]
  intro hc
  exact hcn hc.1

/-! ## C8 — partial terminal update -/

/-- Record with a previously-set category, for the C8 counterexample. -/
def c8row : AnalysisRow :=
  { pendingRow "p.com" (some "u") none NEW_VERSION_DATE with category := some "Old" }

/-- Completed result whose payload has no `category` field. -/
def c8content : List (String × JVal) :=
  [("company_name", JVal.str "Acme"),
   ("competitors", JVal.arr [JVal.obj [("hostname", JVal.str "a.com")]])]

/-- Fetched task result for the C8 counterexample (non-deep, passes all
quality gates). -/
def c8result : TaskResult :=
  { output := { otype := "json", content := some c8content },
    run_metadata := some { hostname := some "p.com", isDeep := false,
                           username := some "u", profile_image_url := none } }

/-- C8 counterexample: the job payload has no `category` field, yet the
successful terminal update sets the previously stored category to NULL
instead of leaving it unchanged — `handleWebhook` supplies all five
denormalized keys with `analysisData.x || null`, and the store writes every
key that is not `undefined`. -/
theorem C8_counterexample :
    (getAnalysis (handleCompleted (fun _ => .ok ()) (.ok c8result) "p.com" [c8row]
      NEW_VERSION_DATE).1 "p.com").map AnalysisRow.category = some none ∧
    c8row.category = some "Old" := by
  constructor
  · decide
  · decide

/-- Extra-fields object with every key absent, for the C8 witness. -/
def c8dnone : UpdateData :=
  { company_name := none, category := none, business_description := none,
    industry_sector := none, keywords := none }

/-- Completed content carrying no usable `company_name`, for the C8
witness. -/
def c8nocn : List (String × JVal) :=
  [("competitors", JVal.arr [JVal.obj [("hostname", JVal.str "a.com")]])]

/-- C8 (amended): when the terminal update succeeds it sets `status =
done`, refreshes `updated_at` and writes `result`/`error` on the matching
row (first conjunct), and each denormalized column is left unchanged on
every row exactly when its key is absent (`undefined`) from the
extra-fields object (next five conjuncts); the `updateData` object built by
the webhook handler always supplies all five keys (seventh conjunct),
mapping payload-absent fields to explicit nulls, so the four nullable
denormalized columns are set to NULL by the webhook path when absent from
the payload rather than preserved — while for the NOT NULL `company_name`
column a payload without a usable value makes the UPDATE itself throw the
constraint error instead of writing anything (last conjunct). -/
theorem C8_terminal_update_frame (s : Store) (h : String) (res err : Option String)
    (d : UpdateData) (now : Int) (content : List (String × JVal)) (s2 : Store)
    (hok : updateAnalysisResultWithData s h res err d now = Except.ok s2) :
    (∀ r ∈ s2, r.hostname = h →
       r.status = "done" ∧ r.updated_at = now ∧ r.result = res ∧ r.error = err) ∧
    (d.category = none → s2.map AnalysisRow.category = s.map AnalysisRow.category) ∧
    (d.business_description = none →
      s2.map AnalysisRow.business_description = s.map AnalysisRow.business_description) ∧
    (d.industry_sector = none →
      s2.map AnalysisRow.industry_sector = s.map AnalysisRow.industry_sector) ∧
    (d.keywords = none → s2.map AnalysisRow.keywords = s.map AnalysisRow.keywords) ∧
    (d.company_name = none →
      s2.map AnalysisRow.company_name = s.map AnalysisRow.company_name) ∧
    ((mkUpdateData (some content)).company_name ≠ none ∧
     (mkUpdateData (some content)).category ≠ none ∧
     (mkUpdateData (some content)).business_description ≠ none ∧
     (mkUpdateData (some content)).industry_sector ≠ none ∧
     (mkUpdateData (some content)).keywords ≠ none) ∧
    (jsStrField (some content) "company_name" = none → (getAnalysis s h).isSome = true →
      updateAnalysisResultWithData s h res err (mkUpdateData (some content)) now =
        Except.error "NOT NULL constraint failed: analyses.company_name") := by
  have hs2 := updateWithData_ok_inv s h res err d now s2 hok
  subst hs2
  refine ⟨?_, ?_, ?_, ?_, ?_, ?_, ?_, ?_⟩
  · intro r hr hh
    rw [applyTerminalUpdate] at hr
    obtain ⟨r0, hr0, hmap⟩ := List.mem_map.mp hr
    by_cases h0 : r0.hostname = h
    · rw [if_pos h0] at hmap
      subst hmap
      simp [applyUpdateData]
    · rw [if_neg h0] at hmap
      subst hmap
      exact absurd hh h0
  · intro hd
    rw [applyTerminalUpdate, List.map_map]
    apply List.map_congr_left
    intro r hr
    by_cases h0 : r.hostname = h
    · simp [h0, applyUpdateData, hd]
    · simp [h0]
  · intro hd
    rw [applyTerminalUpdate, List.map_map]
    apply List.map_congr_left
    intro r hr
    by_cases h0 : r.hostname = h
    · simp [h0, applyUpdateData, hd]
    · simp [h0]
  · intro hd
    rw [applyTerminalUpdate, List.map_map]
    apply List.map_congr_left
    intro r hr
    by_cases h0 : r.hostname = h
    · simp [h0, applyUpdateData, hd]
    · simp [h0]
  · intro hd
    rw [applyTerminalUpdate, List.map_map]
    apply List.map_congr_left
    intro r hr
    by_cases h0 : r.hostname = h
    · simp [h0, applyUpdateData, hd]
    · simp [h0]
  · intro hd
    rw [applyTerminalUpdate, List.map_map]
    apply List.map_congr_left
    intro r hr
    by_cases h0 : r.hostname = h
    · simp [h0, applyUpdateData, hd]
    · simp [h0]
  · simp [mkUpdateData]
  · intro h1 h2
    unfold updateAnalysisResultWithData
    rw [if_pos ⟨by simp [mkUpdateData, h1], h2⟩]

/-- Witness for C8 (amended): with an extra-fields object whose keys are
all absent the successful update leaves the category column untouched, and
with a payload carrying no usable company_name the update throws the NOT
NULL constraint error. -/
theorem C8_terminal_update_frame_witness :
    ((applyTerminalUpdate [c8row] "p.com" (some "R") none c8dnone NEW_VERSION_DATE).map
       AnalysisRow.category = [c8row].map AnalysisRow.category) ∧
    updateAnalysisResultWithData [c8row] "p.com" (some "R") none
      (mkUpdateData (some c8nocn)) NEW_VERSION_DATE =
      Except.error "NOT NULL constraint failed: analyses.company_name" :=
  have H := C8_terminal_update_frame [c8row] "p.com" (some "R") none c8dnone
    NEW_VERSION_DATE c8nocn
    (applyTerminalUpdate [c8row] "p.com" (some "R") none c8dnone NEW_VERSION_DATE)
    (by rfl)
  ⟨H.2.1 rfl, H.2.2.2.2.2.2.2 (by decide) (by decide)⟩

/-! ## Store lemmas and fan-out step lemmas -/

theorem getAnalysis_create_ne (s : Store) (r : AnalysisRow) (h : String)
    (hne : h ≠ r.hostname) : getAnalysis (createAnalysis s r) h = getAnalysis s h := by
  unfold getAnalysis createAnalysis deleteAnalysis
  rw [List.find?_append, List.find?_filter]
  have h1 : List.find? (fun a => decide ((a.hostname != r.hostname) = true ∧
      decide (a.hostname = h) = true)) s = List.find? (fun a => decide (a.hostname = h)) s := by
    congr 1
    funext a
    by_cases hah : a.hostname = h
    · have hne2 : a.hostname ≠ r.hostname := by
        rw [hah]
        exact hne
      simp [hah, hne2]
      exact hne
    · simp [hah]
  rw [h1]
  have h2 : List.find? (fun a => decide (a.hostname = h)) [r] = none := by
    rw [List.find?_cons_of_neg]
    · rfl
    · simp
      exact fun hh => absurd hh.symm hne
  rw [h2]
  exact Option.or_none

theorem getAnalysis_create_self (s : Store) (r : AnalysisRow) :
    getAnalysis (createAnalysis s r) r.hostname = some r := by
  unfold getAnalysis createAnalysis deleteAnalysis
  rw [List.find?_append]
  have h1 : List.find? (fun a => decide (a.hostname = r.hostname))
      (List.filter (fun a => a.hostname != r.hostname) s) = none := by
    rw [List.find?_eq_none]
    intro x hx
    have hq := (List.mem_filter.mp hx).2
    simp at hq ⊢
    exact hq
  rw [h1]
  simp [List.find?_cons]

theorem deleteAnalysis_of_absent (s : Store) (h : String)
    (hab : getAnalysis s h = none) : deleteAnalysis s h = s := by
  unfold getAnalysis at hab
  rw [List.find?_eq_none] at hab
  unfold deleteAnalysis
  rw [List.filter_eq_self]
  intro a ha
  have := hab a ha
  simp at this ⊢
  exact this

theorem fanOutStep_skip (submit : String → Except String Unit) (now : Int) (meta : Metadata)
    (acc : Store × List Submission × Option String) (h : String) (r : AnalysisRow)
    (hget : getAnalysis acc.1 h = some r)
    (hskip : (jsStrFalsy r.error && !isAnalysisOld r.updated_at now) = true) :
    fanOutStep submit now meta acc h = acc := by
  obtain ⟨s0, subs0, e0⟩ := acc
  simp [fanOutStep, hget, hskip]

theorem fanOutStep_none_ok (submit : String → Except String Unit) (now : Int) (meta : Metadata)
    (acc : Store × List Submission × Option String) (h : String)
    (hget : getAnalysis acc.1 h = none) (hok : submit h = .ok ()) :
    fanOutStep submit now meta acc h =
      (createAnalysis acc.1 (pendingRow h meta.username meta.profile_image_url now),
       acc.2.1 ++ [⟨h, false, meta.username, meta.profile_image_url⟩], acc.2.2) := by
  obtain ⟨s0, subs0, e0⟩ := acc
  simp [fanOutStep, performAnalysis, hget, hok]

theorem fanOutStep_some_ok (submit : String → Except String Unit) (now : Int) (meta : Metadata)
    (acc : Store × List Submission × Option String) (h : String) (r : AnalysisRow)
    (hget : getAnalysis acc.1 h = some r)
    (hskip : (jsStrFalsy r.error && !isAnalysisOld r.updated_at now) = false)
    (hok : submit h = .ok ()) :
    fanOutStep submit now meta acc h =
      (createAnalysis acc.1 (pendingRow h meta.username meta.profile_image_url now),
       acc.2.1 ++ [⟨h, false, meta.username, meta.profile_image_url⟩], acc.2.2) := by
  obtain ⟨s0, subs0, e0⟩ := acc
  simp [fanOutStep, performAnalysis, hget, hskip, hok]

theorem fanOutStep_none_err (submit : String → Except String Unit) (now : Int) (meta : Metadata)
    (acc : Store × List Submission × Option String) (h : String) (e : String)
    (hget : getAnalysis acc.1 h = none) (herr : submit h = .error e) :
    fanOutStep submit now meta acc h = (acc.1, acc.2.1, acc.2.2 <|> some e) := by
  obtain ⟨s0, subs0, e0⟩ := acc
  simp [fanOutStep, performAnalysis, hget, herr]

/-- C2: for a signed completed webhook of a deep-flagged job whose result
lists competitor hostnames A (no existing record), B (existing record with
falsy error and fresh `updated_at`) and C (existing record with an error),
exactly A and C are submitted as new jobs — each carrying `isDeep = false`
and the requester identity echoed in the run metadata — and B receives
none; the webhook responds 200. -/
theorem C2_fanout_suppression
    (hmac : String → String → String) (secret wid wts sig body p : String)
    (payload : WebhookPayload) (result : TaskResult) (meta : Metadata)
    (submit : String → Except String Unit) (s : Store) (now : Int)
    (A B C : String) (rB rC : AnalysisRow)
    (hw1 : wid ≠ "") (hw2 : wts ≠ "") (hw3 : sig ≠ "")
    (hver : verifyWebhookSignature hmac secret wid wts body sig = true)
    (hp1 : payload.ptype = "task_run.status") (hp2 : payload.status = "completed")
    (hph : metadataHostname payload.metadata = some p)
    (hgate1 : companyFitsFalse result.output.content = false)
    (hgate2 : result.output.otype = "json")
    (hgate3 : hasEmptyString result.output.content = false)
    (hmeta : result.run_metadata = some meta) (hdeep : meta.isDeep = true)
    (hcomp : competitorHostnames result.output.content = [A, B, C])
    (hA : getAnalysis s A = none)
    (hB : getAnalysis s B = some rB) (hBerr : jsStrFalsy rB.error = true)
    (hBold : isAnalysisOld rB.updated_at now = false)
    (hC : getAnalysis s C = some rC) (hCerr : jsStrFalsy rC.error = false)
    (hBA : B ≠ A) (hCA : C ≠ A)
    (hsA : submit A = .ok ()) (hsC : submit C = .ok ()) :
    (handleWebhook hmac secret "POST" (some wid) (some wts) (some sig) body payload
      (.ok result) submit s now).2.2 =
      [⟨A, false, meta.username, meta.profile_image_url⟩,
       ⟨C, false, meta.username, meta.profile_image_url⟩] ∧
    (handleWebhook hmac secret "POST" (some wid) (some wts) (some sig) body payload
      (.ok result) submit s now).1 = 200 := by
  have hf1 : jsStrFalsy (some wid) = false := by
    simp [jsStrFalsy]
    exact hw1
  have hf2 : jsStrFalsy (some wts) = false := by
    simp [jsStrFalsy]
    exact hw2
  have hf3 : jsStrFalsy (some sig) = false := by
    simp [jsStrFalsy]
    exact hw3
  -- the fan-out fold over [A, B, C]
  have hgetB : getAnalysis (createAnalysis s
      (pendingRow A meta.username meta.profile_image_url now)) B = some rB := by
    rw [getAnalysis_create_ne _ _ _ hBA]
    exact hB
  have hgetC : getAnalysis (createAnalysis s
      (pendingRow A meta.username meta.profile_image_url now)) C = some rC := by
    rw [getAnalysis_create_ne _ _ _ hCA]
    exact hC
  have hrun : runFanOut submit now meta s [A, B, C] =
      (createAnalysis (createAnalysis s (pendingRow A meta.username meta.profile_image_url now))
        (pendingRow C meta.username meta.profile_image_url now),
       [⟨A, false, meta.username, meta.profile_image_url⟩,
        ⟨C, false, meta.username, meta.profile_image_url⟩], none) := by
    unfold runFanOut
    rw [List.foldl_cons,
      fanOutStep_none_ok submit now meta (s, [], none) A hA hsA,
      List.foldl_cons,
      fanOutStep_skip submit now meta _ B rB hgetB (by rw [hBerr, hBold]; rfl),
      List.foldl_cons,
      fanOutStep_some_ok submit now meta _ C rC hgetC (by rw [hCerr]; rfl) hsC,
      List.foldl_nil]
    rfl
  have hhc2 : (handleCompleted submit (.ok result) p s now).2 =
      [⟨A, false, meta.username, meta.profile_image_url⟩,
       ⟨C, false, meta.username, meta.profile_image_url⟩] := by
    simp only [handleCompleted, hgate1, hgate2, hgate3, hcomp, hmeta, hrun, jsIsDeep, hdeep,
      Bool.false_eq_true, if_false, bne_self_eq_false, List.isEmpty_cons, Bool.not_false,
      Bool.and_self, if_true, Option.getD_some]
    obtain ⟨u, hu⟩ : ∃ u, updateAnalysisResultWithData
        (createAnalysis (createAnalysis s (pendingRow A meta.username meta.profile_image_url now))
          (pendingRow C meta.username meta.profile_image_url now))
        p (some (serializeResult result)) none (mkUpdateData result.output.content) now = u :=
      ⟨_, rfl⟩
    rw [hu]
    cases u <;> rfl
  constructor
  · simp only [handleWebhook, bne_self_eq_false, Bool.false_eq_true, if_false, hf1, hf2, hf3,
      Bool.or_self, Option.getD_some, hver, Bool.not_true, hp1, hp2, beq_self_eq_true,
      Bool.and_self, if_true, hph, hhc2]
  · simp only [handleWebhook, bne_self_eq_false, Bool.false_eq_true, if_false, hf1, hf2, hf3,
      Bool.or_self, Option.getD_some, hver, Bool.not_true, hp1, hp2, beq_self_eq_true,
      Bool.and_self, if_true, hph, hhc2]

/-- Run metadata of the C2 witness event. -/
def c2meta : Metadata :=
  { hostname := some "p.com", isDeep := true, username := some "u",
    profile_image_url := some "img" }

/-- Output content of the C2 witness event: three competitors. -/
def c2content : List (String × JVal) :=
  [("company_name", JVal.str "P"),
   ("competitors", JVal.arr [JVal.obj [("hostname", JVal.str "a.com")],
     JVal.obj [("hostname", JVal.str "b.com")],
     JVal.obj [("hostname", JVal.str "c.com")]])]

/-- Fetched result of the C2 witness event. -/
def c2result : TaskResult :=
  { output := { otype := "json", content := some c2content },
    run_metadata := some c2meta }

/-- Parsed webhook payload of the C2 witness event. -/
def c2payload : WebhookPayload :=
  { ptype := "task_run.status", status := "completed", run_id := "r1",
    metadata := some c2meta, error_message := none }

/-- Fresh error-free record for hostname B of the C2 witness. -/
def c2rB : AnalysisRow := pendingRow "b.com" (some "u") none NEW_VERSION_DATE

/-- Errored record for hostname C of the C2 witness. -/
def c2rC : AnalysisRow :=
  { pendingRow "c.com" (some "u") none NEW_VERSION_DATE with error := some "failed" }

/-- Witness for C2 at a concrete store and event: exactly `a.com` (fresh)
and `c.com` (errored) are submitted non-deep for requester `u`; `b.com` is
suppressed. -/
theorem C2_fanout_suppression_witness :
    (handleWebhook (fun _ x => "H" ++ x) "sec" "POST" (some "id") (some "ts")
      (some ("v1," ++ (fun (_ x : String) => "H" ++ x) "sec"
        ("id" ++ "." ++ "ts" ++ "." ++ "BODY"))) "BODY" c2payload
      (.ok c2result) (fun _ => .ok ()) [c2rB, c2rC] NEW_VERSION_DATE).2.2 =
      [⟨"a.com", false, c2meta.username, c2meta.profile_image_url⟩,
       ⟨"c.com", false, c2meta.username, c2meta.profile_image_url⟩] ∧
    (handleWebhook (fun _ x => "H" ++ x) "sec" "POST" (some "id") (some "ts")
      (some ("v1," ++ (fun (_ x : String) => "H" ++ x) "sec"
        ("id" ++ "." ++ "ts" ++ "." ++ "BODY"))) "BODY" c2payload
      (.ok c2result) (fun _ => .ok ()) [c2rB, c2rC] NEW_VERSION_DATE).1 = 200 :=
  C2_fanout_suppression (fun _ x => "H" ++ x) "sec" "id" "ts"
    ("v1," ++ (fun (_ x : String) => "H" ++ x) "sec" ("id" ++ "." ++ "ts" ++ "." ++ "BODY"))
    "BODY" "p.com" c2payload c2result c2meta (fun _ => .ok ()) [c2rB, c2rC]
    NEW_VERSION_DATE "a.com" "b.com" "c.com" c2rB c2rC
    (by decide) (by decide) (by decide) (by decide) (by decide) (by decide) (by decide)
    (by decide) (by decide) (by decide) (by decide) (by decide) (by decide) (by decide)
    (by decide) (by decide) (by decide) (by decide) (by decide) (by decide) (by decide)
    rfl rfl

/-! ## C1 — a competitor submission failure and the parent's transition -/

/-- Pending parent record for the C1 counterexample. -/
def c1row : AnalysisRow := pendingRow "p.com" (some "u") none NEW_VERSION_DATE

/-- Deep run metadata for the C1 counterexample. -/
def c1meta : Metadata :=
  { hostname := some "p.com", isDeep := true, username := some "u",
    profile_image_url := none }

/-- Output content of the C1 counterexample: one competitor. -/
def c1content : List (String × JVal) :=
  [("company_name", JVal.str "P"),
   ("competitors", JVal.arr [JVal.obj [("hostname", JVal.str "a.com")]])]

/-- Fetched result of the C1 counterexample: passes all quality gates. -/
def c1result : TaskResult :=
  { output := { otype := "json", content := some c1content },
    run_metadata := some c1meta }

/-- C1 counterexample: a deep completed webhook whose only competitor
submission throws does NOT leave the parent as a success — the rejected
`Promise.all` is caught by the result-fetch catch block, so the parent is
terminalized with `error = "Error fetching result: boom"` and `result =
NULL`, and the competitor record is not created. The claim as stated
(parent persisted with `error = null` and the result blob stored) is
false. -/
theorem C1_counterexample :
    (getAnalysis (handleCompleted (fun _ => .error "boom") (.ok c1result) "p.com"
      [c1row] NEW_VERSION_DATE).1 "p.com").map (fun r => (r.status, r.error, r.result)) =
    some ("done", some "Error fetching result: boom", none) := by
  decide
/-- C1 (amended): when a deep completed webhook passes all quality gates
but at least one competitor job submission throws, the awaited
`Promise.all` rejects into the catch block: the webhook still responds
200, but the parent record is terminalized as `status = done` with
`error = "Error fetching result: <submission error>"` and `result = NULL`
— the success update (result blob + denormalized fields) is skipped.
Competitors whose submissions succeeded still have their pending records
created (they are in the fan-out output store and submission list). -/
theorem C1_fanout_failure_terminalizes_parent
    (hmac : String → String → String) (secret wid wts sig body p e : String)
    (payload : WebhookPayload) (result : TaskResult) (meta : Metadata)
    (submit : String → Except String Unit) (s : Store) (now : Int)
    (hw1 : wid ≠ "") (hw2 : wts ≠ "") (hw3 : sig ≠ "")
    (hver : verifyWebhookSignature hmac secret wid wts body sig = true)
    (hp1 : payload.ptype = "task_run.status") (hp2 : payload.status = "completed")
    (hph : metadataHostname payload.metadata = some p)
    (hgate1 : companyFitsFalse result.output.content = false)
    (hgate2 : result.output.otype = "json")
    (hgate3 : hasEmptyString result.output.content = false)
    (hmeta : result.run_metadata = some meta) (hdeep : meta.isDeep = true)
    (hcompne : competitorHostnames result.output.content ≠ [])
    (hrun : (runFanOut submit now meta s (competitorHostnames result.output.content)).2.2
      = some e) :
    handleWebhook hmac secret "POST" (some wid) (some wts) (some sig) body payload
      (.ok result) submit s now =
      (200, updateAnalysisResult
        (runFanOut submit now meta s (competitorHostnames result.output.content)).1
        p none (some ("Error fetching result: " ++ e)) now,
        (runFanOut submit now meta s (competitorHostnames result.output.content)).2.1) ∧
    (∀ r ∈ updateAnalysisResult
        (runFanOut submit now meta s (competitorHostnames result.output.content)).1
        p none (some ("Error fetching result: " ++ e)) now,
      r.hostname = p →
        r.status = "done" ∧ r.result = none ∧
        r.error = some ("Error fetching result: " ++ e)) := by
  have hf1 : jsStrFalsy (some wid) = false := by
    simp [jsStrFalsy]
    exact hw1
  have hf2 : jsStrFalsy (some wts) = false := by
    simp [jsStrFalsy]
    exact hw2
  have hf3 : jsStrFalsy (some sig) = false := by
    simp [jsStrFalsy]
    exact hw3
  have hempty : (competitorHostnames result.output.content).isEmpty = false := by
    cases hl : competitorHostnames result.output.content with
    | nil => exact absurd hl hcompne
    | cons a as => rfl
  constructor
  · simp only [handleWebhook, bne_self_eq_false, Bool.false_eq_true, if_false, hf1, hf2, hf3,
      Bool.or_self, Option.getD_some, hver, Bool.not_true, hp1, hp2, beq_self_eq_true,
      Bool.and_self, if_true, hph, handleCompleted, hgate1, hgate2, hgate3, hempty, hmeta,
      jsIsDeep, hdeep, Bool.not_false, hrun]
  · intro r hr hh
    rw [updateAnalysisResult] at hr
    obtain ⟨r0, hr0, hmap⟩ := List.mem_map.mp hr
    by_cases h0 : r0.hostname = p
    · rw [if_pos h0] at hmap
      subst hmap
      exact ⟨rfl, rfl, rfl⟩
    · rw [if_neg h0] at hmap
      subst hmap
      exact absurd hh h0

/-- Parsed webhook payload of the C1 witness event. -/
def c1payload : WebhookPayload :=
  { ptype := "task_run.status", status := "completed", run_id := "r1",
    metadata := some c1meta, error_message := none }

/-- Witness for C1 (amended) at the counterexample input: the webhook
responds 200 and the parent row is terminalized with the submission
error. -/
theorem C1_fanout_failure_terminalizes_parent_witness :
    handleWebhook (fun _ x => "H" ++ x) "sec" "POST" (some "id") (some "ts")
      (some ("v1," ++ (fun (_ x : String) => "H" ++ x) "sec"
        ("id" ++ "." ++ "ts" ++ "." ++ "BODY"))) "BODY" c1payload
      (.ok c1result) (fun _ => .error "boom") [c1row] NEW_VERSION_DATE =
      (200, updateAnalysisResult
        (runFanOut (fun _ => .error "boom") NEW_VERSION_DATE c1meta [c1row]
          (competitorHostnames c1result.output.content)).1
        "p.com" none (some ("Error fetching result: " ++ "boom")) NEW_VERSION_DATE,
        (runFanOut (fun _ => .error "boom") NEW_VERSION_DATE c1meta [c1row]
          (competitorHostnames c1result.output.content)).2.1) ∧
    (∀ r ∈ updateAnalysisResult
        (runFanOut (fun _ => .error "boom") NEW_VERSION_DATE c1meta [c1row]
          (competitorHostnames c1result.output.content)).1
        "p.com" none (some ("Error fetching result: " ++ "boom")) NEW_VERSION_DATE,
      r.hostname = "p.com" →
        r.status = "done" ∧ r.result = none ∧
        r.error = some ("Error fetching result: " ++ "boom")) :=
  C1_fanout_failure_terminalizes_parent (fun _ x => "H" ++ x) "sec" "id" "ts"
    ("v1," ++ (fun (_ x : String) => "H" ++ x) "sec" ("id" ++ "." ++ "ts" ++ "." ++ "BODY"))
    "BODY" "p.com" "boom" c1payload c1result c1meta (fun _ => .error "boom") [c1row]
    NEW_VERSION_DATE (by decide) (by decide) (by decide) (by decide) (by decide) (by decide)
    (by decide) (by decide) (by decide) (by decide) (by decide) (by decide) (by decide)
    (by decide)

/-! ## C10 — fan-out records count toward the requester quota -/

theorem getAnalysis_append_none (S : Store) (r : AnalysisRow) (h : String)
    (hS : getAnalysis S h = none) (hne : h ≠ r.hostname) :
    getAnalysis (S ++ [r]) h = none := by
  unfold getAnalysis at *
  rw [List.find?_append, hS]
  rw [List.find?_cons_of_neg]
  · rfl
  · simp
    exact fun hh => absurd hh.symm hne

theorem fanOut_fold_fresh (submit : String → Except String Unit) (now : Int) (meta : Metadata)
    (S : Store) (subsAcc : List Submission) (hs : List String)
    (hnodup : hs.Nodup) (hfresh : ∀ h ∈ hs, getAnalysis S h = none)
    (hsub : ∀ h ∈ hs, submit h = .ok ()) :
    hs.foldl (fanOutStep submit now meta) (S, subsAcc, none) =
      (S ++ hs.map (fun h => pendingRow h meta.username meta.profile_image_url now),
       subsAcc ++ hs.map (fun h =>
         Submission.mk h false meta.username meta.profile_image_url),
       none) := by
  induction hs generalizing S subsAcc with
  | nil => simp
  | cons h rest ih =>
    have hfh : getAnalysis S h = none := hfresh h (List.mem_cons_self h rest)
    rw [List.foldl_cons,
      fanOutStep_none_ok submit now meta (S, subsAcc, none) h hfh
        (hsub h (List.mem_cons_self h rest))]
    have hcr : createAnalysis S (pendingRow h meta.username meta.profile_image_url now)
        = S ++ [pendingRow h meta.username meta.profile_image_url now] := by
      show deleteAnalysis S h ++ [pendingRow h meta.username meta.profile_image_url now]
        = S ++ [pendingRow h meta.username meta.profile_image_url now]
      rw [deleteAnalysis_of_absent S h hfh]
    show rest.foldl (fanOutStep submit now meta)
      (createAnalysis S (pendingRow h meta.username meta.profile_image_url now),
       subsAcc ++ [Submission.mk h false meta.username meta.profile_image_url], none) = _
    rw [hcr]
    rw [ih (S ++ [pendingRow h meta.username meta.profile_image_url now])
      (subsAcc ++ [Submission.mk h false meta.username meta.profile_image_url])
      (List.Nodup.of_cons hnodup)
      (fun h2 hh2 => getAnalysis_append_none S _ h2 (hfresh h2 (List.mem_cons_of_mem h hh2))
        (fun he => (List.nodup_cons.mp hnodup).1 ((show h2 = h from he) ▸ hh2)))
      (fun h2 hh2 => hsub h2 (List.mem_cons_of_mem h hh2))]
    simp

theorem count_append (s1 s2 : Store) (u : String) :
    getUserAnalysisCount (s1 ++ s2) u = getUserAnalysisCount s1 u + getUserAnalysisCount s2 u := by
  simp [getUserAnalysisCount, List.filter_append]

theorem count_pendingRows (hs : List String) (u : String) (pimg : Option String) (now : Int) :
    getUserAnalysisCount (hs.map (fun h => pendingRow h (some u) pimg now)) u = hs.length := by
  unfold getUserAnalysisCount
  induction hs with
  | nil => rfl
  | cons h rest ih =>
    simp only [List.map_cons, List.filter_cons, pendingRow, Option.getD_some]
    simp only [pendingRow, Option.getD_some] at ih
    simp [ih]

theorem count_applyTerminalUpdate (s : Store) (h : String) (res err : Option String)
    (d : UpdateData) (now : Int) (u : String) :
    getUserAnalysisCount (applyTerminalUpdate s h res err d now) u
      = getUserAnalysisCount s u := by
  unfold getUserAnalysisCount applyTerminalUpdate
  rw [← List.countP_eq_length_filter, ← List.countP_eq_length_filter, List.countP_map]
  apply List.countP_congr
  intro r hr
  by_cases h0 : r.hostname = h
  · simp [h0, applyUpdateData, Function.comp]
  · simp [h0, Function.comp]

theorem count_updateAnalysisResult (s : Store) (h : String) (res err : Option String)
    (now : Int) (u : String) :
    getUserAnalysisCount (updateAnalysisResult s h res err now) u
      = getUserAnalysisCount s u := by
  unfold getUserAnalysisCount updateAnalysisResult
  rw [← List.countP_eq_length_filter, ← List.countP_eq_length_filter, List.countP_map]
  apply List.countP_congr
  intro r hr
  by_cases h0 : r.hostname = h
  · simp [h0, Function.comp]
  · simp [h0, Function.comp]

/-- C10: for a deep completion whose competitor hostnames are pairwise
distinct, not yet present in the store, and all of whose submissions
succeed, with requester username `u` echoed in the run metadata: every
issued submission carries `username = some u` and `isDeep = false` (first
conjunct); the per-identity count — which counts every row with that
username regardless of status or error — grows by exactly the number of
fan-out records (second conjunct); and a subsequent `/new` request by the
non-admin `u` for a fresh valid hostname is rejected with 429 and no store
change or submission once the count has reached the limit of 5 (third
conjunct). -/
theorem C10_fanout_quota_accounting
    (submit : String → Except String Unit) (result : TaskResult) (meta : Metadata)
    (p u : String) (s : Store) (now : Int)
    (hgate1 : companyFitsFalse result.output.content = false)
    (hgate2 : result.output.otype = "json")
    (hgate3 : hasEmptyString result.output.content = false)
    (hmeta : result.run_metadata = some meta) (hdeep : meta.isDeep = true)
    (hsne : competitorHostnames result.output.content ≠ [])
    (hnodup : (competitorHostnames result.output.content).Nodup)
    (hfresh : ∀ h ∈ competitorHostnames result.output.content, getAnalysis s h = none)
    (hsub : ∀ h ∈ competitorHostnames result.output.content, submit h = .ok ())
    (huser : meta.username = some u) :
    (∀ sub ∈ (handleCompleted submit (.ok result) p s now).2,
       sub.username = some u ∧ sub.isDeep = false) ∧
    getUserAnalysisCount (handleCompleted submit (.ok result) p s now).1 u =
      getUserAnalysisCount s u + (competitorHostnames result.output.content).length ∧
    (∀ (valid : String → Bool) (submit2 : String → Except String Unit)
       (pimg2 : Option String) (c : String) (now2 : Int),
      (strTrim c).data.isEmpty = false →
      getAnalysis (handleCompleted submit (.ok result) p s now).1 (strLower (strTrim c))
        = none →
      valid (strLower (strTrim c)) = true →
      ANALYSIS_LIMIT ≤ getUserAnalysisCount (handleCompleted submit (.ok result) p s now).1 u →
      ADMIN_USERNAMES.contains u = false →
      handleNew valid submit2 true (some u) pimg2 (some c)
        (handleCompleted submit (.ok result) p s now).1 now2 =
        (429, (handleCompleted submit (.ok result) p s now).1, [])) := by
  have hempty : (competitorHostnames result.output.content).isEmpty = false := by
    cases hl : competitorHostnames result.output.content with
    | nil => exact absurd hl hsne
    | cons a as => rfl
  have hrun : runFanOut submit now meta s (competitorHostnames result.output.content) =
      (s ++ (competitorHostnames result.output.content).map
        (fun h => pendingRow h meta.username meta.profile_image_url now),
       (competitorHostnames result.output.content).map
         (fun h => Submission.mk h false meta.username meta.profile_image_url),
       none) :=
    fanOut_fold_fresh submit now meta s [] _ hnodup hfresh hsub
  have hred : handleCompleted submit (.ok result) p s now =
      (match updateAnalysisResultWithData
          (s ++ (competitorHostnames result.output.content).map
            (fun h => pendingRow h meta.username meta.profile_image_url now))
          p (some (serializeResult result)) none (mkUpdateData result.output.content) now with
       | .ok s2 =>
         (s2, (competitorHostnames result.output.content).map
           (fun h => Submission.mk h false meta.username meta.profile_image_url))
       | .error e =>
         (updateAnalysisResult
           (s ++ (competitorHostnames result.output.content).map
             (fun h => pendingRow h meta.username meta.profile_image_url now))
           p none (some ("Error fetching result: " ++ e)) now,
          (competitorHostnames result.output.content).map
            (fun h => Submission.mk h false meta.username meta.profile_image_url))) := by
    simp only [handleCompleted, hgate1, hgate2, hgate3, hempty, hmeta, jsIsDeep, hdeep,
      Bool.false_eq_true, if_false, bne_self_eq_false, Bool.not_false, Bool.and_self,
      if_true, Option.getD_some, hrun]
  obtain ⟨upd, hupd⟩ : ∃ v, updateAnalysisResultWithData
      (s ++ (competitorHostnames result.output.content).map
        (fun h => pendingRow h meta.username meta.profile_image_url now))
      p (some (serializeResult result)) none (mkUpdateData result.output.content) now = v :=
    ⟨_, rfl⟩
  rw [hupd] at hred
  refine ⟨?_, ?_, ?_⟩
  · intro sub hsub2
    rw [hred] at hsub2
    cases upd with
    | ok s2 =>
      obtain ⟨h, hh, hmap⟩ := List.mem_map.mp hsub2
      subst hmap
      exact ⟨huser, rfl⟩
    | error e =>
      obtain ⟨h, hh, hmap⟩ := List.mem_map.mp hsub2
      subst hmap
      exact ⟨huser, rfl⟩
  · rw [hred]
    cases upd with
    | ok s2 =>
      show getUserAnalysisCount s2 u = _
      rw [updateWithData_ok_inv _ _ _ _ _ _ _ hupd]
      rw [count_applyTerminalUpdate, count_append]
      rw [huser]
      rw [count_pendingRows]
    | error e =>
      show getUserAnalysisCount (updateAnalysisResult _ p none _ now) u = _
      rw [count_updateAnalysisResult, count_append]
      rw [huser]
      rw [count_pendingRows]
  · intro valid submit2 pimg2 c now2 htr hga2 hv2 hcount hadm
    have hq : decide (ANALYSIS_LIMIT ≤
        getUserAnalysisCount (handleCompleted submit (.ok result) p s now).1 u) = true :=
      decide_eq_true hcount
    simp only [handleNew, htr, hga2, hv2, hadm, hq, Bool.false_eq_true, if_false,
      Bool.not_true, Bool.not_false, Bool.and_self, if_true, Option.getD_some]

/-- Deep run metadata of the C10 witness (requester `u`). -/
def c10meta : Metadata :=
  { hostname := some "p.com", isDeep := true, username := some "u",
    profile_image_url := none }

/-- Output content of the C10 witness: two fresh competitors. -/
def c10content : List (String × JVal) :=
  [("company_name", JVal.str "P"),
   ("competitors", JVal.arr [JVal.obj [("hostname", JVal.str "a.com")],
     JVal.obj [("hostname", JVal.str "b.com")]])]

/-- Fetched task result of the C10 witness. -/
def c10result : TaskResult :=
  { output := { otype := "json", content := some c10content },
    run_metadata := some c10meta }

/-- Witness for C10: processing the witness event on an empty store raises
the requester count by the number of discovered competitors. -/
theorem C10_fanout_quota_accounting_witness :
    getUserAnalysisCount (handleCompleted (fun _ => .ok ()) (.ok c10result) "p.com" []
      NEW_VERSION_DATE).1 "u" =
      getUserAnalysisCount [] "u" + (competitorHostnames c10result.output.content).length :=
  (C10_fanout_quota_accounting (fun _ => .ok ()) c10result c10meta "p.com" "u" []
    NEW_VERSION_DATE (by decide) (by decide) (by decide) (by decide) (by decide) (by decide)
    (by decide) (fun h _ => rfl) (fun h _ => rfl) (by decide)).2.1

/-! ## C4 — idempotent webhook delivery -/

/-- The skip test of the fan-out for hostname `h` against store `s`:
an existing record with falsy error and fresh `updated_at`. -/
def skipCond (s : Store) (h : String) (now : Int) : Bool :=
  match getAnalysis s h with
  | some ex => jsStrFalsy ex.error && !isAnalysisOld ex.updated_at now
  | none => false

theorem isAnalysisOld_now_self (now : Int) (hnvd : NEW_VERSION_DATE ≤ now) :
    isAnalysisOld now now = false := by
  unfold isAnalysisOld
  rw [if_neg (by omega)]
  simp

theorem skipCond_create_self (S : Store) (h : String) (u pi : Option String) (now : Int)
    (hnvd : NEW_VERSION_DATE ≤ now) :
    skipCond (createAnalysis S (pendingRow h u pi now)) h now = true := by
  unfold skipCond
  have hget := getAnalysis_create_self S (pendingRow h u pi now)
  rw [show (pendingRow h u pi now).hostname = h from rfl] at hget
  rw [hget]
  show (jsStrFalsy none && !isAnalysisOld now now) = true
  rw [isAnalysisOld_now_self now hnvd]
  rfl

theorem skipCond_create_ne (S : Store) (r : AnalysisRow) (h : String)
    (hne : h ≠ r.hostname) :
    skipCond (createAnalysis S r) h now = skipCond S h now := by
  unfold skipCond
  rw [getAnalysis_create_ne S r h hne]

theorem fanOutStep_skipCond_true (submit : String → Except String Unit) (now : Int)
    (meta : Metadata) (acc : Store × List Submission × Option String) (h : String)
    (hsk : skipCond acc.1 h now = true) :
    fanOutStep submit now meta acc h = acc := by
  unfold skipCond at hsk
  rcases hga : getAnalysis acc.1 h with _ | ex
  · rw [hga] at hsk
    cases hsk
  · rw [hga] at hsk
    exact fanOutStep_skip submit now meta acc h ex hga hsk

theorem fanOut_fold_invariant (submit : String → Except String Unit) (now : Int)
    (meta : Metadata) (s : Store) (subsAcc : List Submission) (hs : List String)
    (hnvd : NEW_VERSION_DATE ≤ now)
    (hsub : ∀ h ∈ hs, submit h = .ok ()) :
    ∃ s1 subs1, hs.foldl (fanOutStep submit now meta) (s, subsAcc, none)
        = (s1, subsAcc ++ subs1, none) ∧
      (∀ h', skipCond s h' now = true → skipCond s1 h' now = true) ∧
      (∀ h ∈ hs, skipCond s1 h now = true) := by
  induction hs generalizing s subsAcc with
  | nil =>
    exact ⟨s, [], by simp, fun h' hh => hh, by simp⟩
  | cons h rest ih =>
    have hcre : ∀ h', skipCond s h' now = true →
        skipCond (createAnalysis s (pendingRow h meta.username meta.profile_image_url now))
          h' now = true := by
      intro h' hsk
      by_cases he : h' = h
      · subst he
        exact skipCond_create_self s h' meta.username meta.profile_image_url now hnvd
      · rw [skipCond_create_ne s _ h' he]
        exact hsk
    rcases hga : getAnalysis s h with _ | ex
    · rw [List.foldl_cons, fanOutStep_none_ok submit now meta (s, subsAcc, none) h hga
        (hsub h (List.mem_cons_self h rest))]
      obtain ⟨s1, subs1, heq, hpres, hall⟩ :=
        ih (createAnalysis s (pendingRow h meta.username meta.profile_image_url now))
          (subsAcc ++ [Submission.mk h false meta.username meta.profile_image_url])
          (fun h2 hh2 => hsub h2 (List.mem_cons_of_mem h hh2))
      refine ⟨s1, Submission.mk h false meta.username meta.profile_image_url :: subs1,
        ?_, fun h' hsk => hpres h' (hcre h' hsk), ?_⟩
      · rw [heq]
        simp
      · intro h2 hh2
        rcases List.mem_cons.mp hh2 with rfl | hh3
        · exact hpres h2 (skipCond_create_self s h2 meta.username meta.profile_image_url
            now hnvd)
        · exact hall h2 hh3
    · cases hcond : (jsStrFalsy ex.error && !isAnalysisOld ex.updated_at now) with
      | true =>
        rw [List.foldl_cons, fanOutStep_skip submit now meta (s, subsAcc, none) h ex hga hcond]
        obtain ⟨s1, subs1, heq, hpres, hall⟩ := ih s subsAcc
          (fun h2 hh2 => hsub h2 (List.mem_cons_of_mem h hh2))
        refine ⟨s1, subs1, heq, hpres, ?_⟩
        intro h2 hh2
        rcases List.mem_cons.mp hh2 with rfl | hh3
        · apply hpres
          unfold skipCond
          rw [hga]
          exact hcond
        · exact hall h2 hh3
      | false =>
        rw [List.foldl_cons, fanOutStep_some_ok submit now meta (s, subsAcc, none) h ex hga
          hcond (hsub h (List.mem_cons_self h rest))]
        obtain ⟨s1, subs1, heq, hpres, hall⟩ :=
          ih (createAnalysis s (pendingRow h meta.username meta.profile_image_url now))
            (subsAcc ++ [Submission.mk h false meta.username meta.profile_image_url])
            (fun h2 hh2 => hsub h2 (List.mem_cons_of_mem h hh2))
        refine ⟨s1, Submission.mk h false meta.username meta.profile_image_url :: subs1,
          ?_, fun h' hsk => hpres h' (hcre h' hsk), ?_⟩
        · rw [heq]
          simp
        · intro h2 hh2
          rcases List.mem_cons.mp hh2 with rfl | hh3
          · exact hpres h2 (skipCond_create_self s h2 meta.username meta.profile_image_url
              now hnvd)
          · exact hall h2 hh3

theorem fanOut_fold_noop (submit : String → Except String Unit) (now : Int) (meta : Metadata)
    (s : Store) (subsAcc : List Submission) (e0 : Option String) (hs : List String)
    (hall : ∀ h ∈ hs, skipCond s h now = true) :
    hs.foldl (fanOutStep submit now meta) (s, subsAcc, e0) = (s, subsAcc, e0) := by
  induction hs with
  | nil => rfl
  | cons h rest ih =>
    rw [List.foldl_cons,
      fanOutStep_skipCond_true submit now meta (s, subsAcc, e0) h
        (hall h (List.mem_cons_self h rest))]
    exact ih (fun h2 hh2 => hall h2 (List.mem_cons_of_mem h hh2))

theorem getAnalysis_applyTerminalUpdate (s : Store) (p : String) (res err : Option String)
    (d : UpdateData) (now : Int) (h2 : String) :
    getAnalysis (applyTerminalUpdate s p res err d now) h2 =
      (getAnalysis s h2).map (fun r => if r.hostname = p then applyUpdateData d { r with status := "done", result := res, error := err, updated_at := now } else r) := by
  unfold getAnalysis applyTerminalUpdate
  rw [List.find?_map]
  have hfn : ((fun r : AnalysisRow => decide (r.hostname = h2)) ∘ (fun r => if r.hostname = p then applyUpdateData d { r with status := "done", result := res, error := err, updated_at := now } else r)) = (fun r : AnalysisRow => decide (r.hostname = h2)) := by
    funext r
    simp only [Function.comp]
    split <;> rfl
  rw [hfn]

theorem skipCond_applyTerminalUpdate (s : Store) (p : String) (res : Option String)
    (d : UpdateData) (now : Int) (hnvd : NEW_VERSION_DATE ≤ now) (h2 : String)
    (hsk : skipCond s h2 now = true) :
    skipCond (applyTerminalUpdate s p res none d now) h2 now = true := by
  unfold skipCond at hsk ⊢
  rw [getAnalysis_applyTerminalUpdate]
  rcases hga : getAnalysis s h2 with _ | r
  · rw [hga] at hsk
    cases hsk
  · rw [hga] at hsk
    rw [Option.map_some']
    by_cases pp : r.hostname = p
    · rw [if_pos pp]
      show (jsStrFalsy (applyUpdateData d { r with status := "done", result := res, error := none, updated_at := now }).error && !isAnalysisOld (applyUpdateData d { r with status := "done", result := res, error := none, updated_at := now }).updated_at now) = true
      show (jsStrFalsy none && !isAnalysisOld now now) = true
      rw [isAnalysisOld_now_self now hnvd]
      rfl
    · rw [if_neg pp]
      exact hsk

theorem applyTerminalUpdate_idem (s : Store) (p : String) (res err : Option String)
    (d : UpdateData) (now : Int) :
    applyTerminalUpdate (applyTerminalUpdate s p res err d now)
      p res err d now = applyTerminalUpdate s p res err d now := by
  unfold applyTerminalUpdate
  rw [List.map_map]
  apply List.map_congr_left
  intro r _
  simp only [Function.comp]
  by_cases h0 : r.hostname = p
  · rw [if_pos h0]
    have hhost : (applyUpdateData d { r with status := "done", result := res, error := err, updated_at := now }).hostname = r.hostname := rfl
    rw [if_pos (hhost.trans h0)]
    rcases d with ⟨dc, dca, dbd, dis, dk⟩
    rcases dc with _ | (_ | v1) <;> rcases dca with _ | v2 <;> rcases dbd with _ | v3 <;>
      rcases dis with _ | v4 <;> rcases dk with _ | v5 <;> rfl
  · rw [if_neg h0, if_neg h0]

/-- Keyed-hash oracle shared by the C4 witness and counterexample. -/
def c4hmac : String → String → String := fun _ x => "H" ++ x

/-- Signature header shared by the C4 witness and counterexample (computed
over the raw body only). -/
def c4sig : String := "v1," ++ c4hmac "sec" ("id" ++ "." ++ "ts" ++ "." ++ "BODY")

/-- Deep run metadata of the C4 counterexample. -/
def c4bmeta : Metadata :=
  { hostname := some "p.com", isDeep := true, username := some "u",
    profile_image_url := none }

/-- Output content of the C4 counterexample: no usable `company_name`, and
the parent hostname itself listed among the competitors. -/
def c4bcontent : List (String × JVal) :=
  [("competitors", JVal.arr [JVal.obj [("hostname", JVal.str "p.com")]])]

/-- Fetched task result of the C4 counterexample. -/
def c4bresult : TaskResult :=
  { output := { otype := "json", content := some c4bcontent },
    run_metadata := some c4bmeta }

/-- Parsed webhook payload of the C4 counterexample. -/
def c4bpayload : WebhookPayload :=
  { ptype := "task_run.status", status := "completed", run_id := "r1",
    metadata := some c4bmeta, error_message := none }

/-- Fresh pending parent record of the C4 counterexample. -/
def c4brow : AnalysisRow := pendingRow "p.com" (some "u") none NEW_VERSION_DATE

/-- C4 counterexample: redelivery is not free of duplicate side effects in
general. The payload carries no usable `company_name`, so the first
delivery's terminal UPDATE throws the NOT NULL constraint error and the
catch block leaves the parent record error-terminalized; the parent
hostname is also listed among its own competitors, so the second
delivery's fan-out sees an errored record for it and submits a new job —
the first delivery submitted none (every competitor record was fresh and
error-free), the second submits one. -/
theorem C4_counterexample :
    (handleWebhook c4hmac "sec" "POST" (some "id") (some "ts") (some c4sig) "BODY" c4bpayload
      (.ok c4bresult) (fun _ => .ok ()) [c4brow] NEW_VERSION_DATE).2.2 = [] ∧
    (handleWebhook c4hmac "sec" "POST" (some "id") (some "ts") (some c4sig) "BODY" c4bpayload
      (.ok c4bresult) (fun _ => .ok ())
      (handleWebhook c4hmac "sec" "POST" (some "id") (some "ts") (some c4sig) "BODY"
        c4bpayload (.ok c4bresult) (fun _ => .ok ()) [c4brow] NEW_VERSION_DATE).2.1
      NEW_VERSION_DATE).2.2 = [⟨"p.com", false, some "u", none⟩] := by
  constructor
  · decide
  · decide

/-- C4 (amended): provided the job payload carries a usable (non-empty)
`company_name` — so the terminal UPDATE does not throw the NOT NULL
constraint — delivering the same signed completed deep event twice, with
the second delivery observing the store produced by the first, yields the
same final persisted state: the second delivery is an idempotent update of
the already-done parent row (no error), and its fan-out issues no
submissions because every competitor now has a fresh, error-free record.
(Hypotheses: the event verifies, passes the quality gates, all first-run
submissions succeed, and the delivery time is after the schema epoch.) -/
theorem C4_idempotent_delivery
    (hmac : String → String → String) (secret wid wts sig body p : String)
    (payload : WebhookPayload) (result : TaskResult) (meta : Metadata)
    (submit : String → Except String Unit) (s : Store) (now : Int)
    (hw1 : wid ≠ "") (hw2 : wts ≠ "") (hw3 : sig ≠ "")
    (hver : verifyWebhookSignature hmac secret wid wts body sig = true)
    (hp1 : payload.ptype = "task_run.status") (hp2 : payload.status = "completed")
    (hph : metadataHostname payload.metadata = some p)
    (hgate1 : companyFitsFalse result.output.content = false)
    (hgate2 : result.output.otype = "json")
    (hgate3 : hasEmptyString result.output.content = false)
    (hcn : jsStrField result.output.content "company_name" ≠ none)
    (hmeta : result.run_metadata = some meta) (hdeep : meta.isDeep = true)
    (hsne : competitorHostnames result.output.content ≠ [])
    (hsub : ∀ h ∈ competitorHostnames result.output.content, submit h = .ok ())
    (hnvd : NEW_VERSION_DATE ≤ now) :
    (handleWebhook hmac secret "POST" (some wid) (some wts) (some sig) body payload
      (.ok result) submit
      (handleWebhook hmac secret "POST" (some wid) (some wts) (some sig) body payload
        (.ok result) submit s now).2.1 now).2.1 =
    (handleWebhook hmac secret "POST" (some wid) (some wts) (some sig) body payload
      (.ok result) submit s now).2.1 ∧
    (handleWebhook hmac secret "POST" (some wid) (some wts) (some sig) body payload
      (.ok result) submit
      (handleWebhook hmac secret "POST" (some wid) (some wts) (some sig) body payload
        (.ok result) submit s now).2.1 now).2.2 = [] ∧
    (handleWebhook hmac secret "POST" (some wid) (some wts) (some sig) body payload
      (.ok result) submit
      (handleWebhook hmac secret "POST" (some wid) (some wts) (some sig) body payload
        (.ok result) submit s now).2.1 now).1 = 200 := by
  have hf1 : jsStrFalsy (some wid) = false := by
    simp [jsStrFalsy]
    exact hw1
  have hf2 : jsStrFalsy (some wts) = false := by
    simp [jsStrFalsy]
    exact hw2
  have hf3 : jsStrFalsy (some sig) = false := by
    simp [jsStrFalsy]
    exact hw3
  have hempty : (competitorHostnames result.output.content).isEmpty = false := by
    cases hl : competitorHostnames result.output.content with
    | nil => exact absurd hl hsne
    | cons a as => rfl
  have hwh : ∀ s0 : Store, handleWebhook hmac secret "POST" (some wid) (some wts) (some sig)
      body payload (.ok result) submit s0 now =
      (200, (handleCompleted submit (.ok result) p s0 now).1,
        (handleCompleted submit (.ok result) p s0 now).2) := by
    intro s0
    simp only [handleWebhook, bne_self_eq_false, Bool.false_eq_true, if_false, hf1, hf2, hf3,
      Bool.or_self, Option.getD_some, hver, Bool.not_true, hp1, hp2, beq_self_eq_true,
      Bool.and_self, if_true, hph]
  have hcnd : (mkUpdateData result.output.content).company_name ≠ some none := by
    show some (jsStrField result.output.content "company_name") ≠ some none
    intro hc
    exact hcn (Option.some.inj hc)
  obtain ⟨s1, subs1, heq1, hpres1, hall1⟩ := fanOut_fold_invariant submit now meta s []
    (competitorHostnames result.output.content) hnvd hsub
  have hrun1 : runFanOut submit now meta s (competitorHostnames result.output.content)
      = (s1, subs1, none) := by
    unfold runFanOut
    rw [heq1]
    simp
  have hhc1 : handleCompleted submit (.ok result) p s now =
      (applyTerminalUpdate s1 p (some (serializeResult result)) none
        (mkUpdateData result.output.content) now, subs1) := by
    simp only [handleCompleted, hgate1, hgate2, hgate3, hempty, hmeta, jsIsDeep, hdeep,
      Bool.false_eq_true, if_false, bne_self_eq_false, Bool.not_false, Bool.and_self,
      if_true, Option.getD_some, hrun1,
      updateWithData_ok_of_cn s1 p (some (serializeResult result)) none
        (mkUpdateData result.output.content) now hcnd]
  have hallF1 : ∀ h ∈ competitorHostnames result.output.content,
      skipCond (applyTerminalUpdate s1 p (some (serializeResult result)) none
        (mkUpdateData result.output.content) now) h now = true :=
    fun h hh => skipCond_applyTerminalUpdate s1 p (some (serializeResult result))
      (mkUpdateData result.output.content) now hnvd h (hall1 h hh)
  have hrun2 : runFanOut submit now meta
      (applyTerminalUpdate s1 p (some (serializeResult result)) none
        (mkUpdateData result.output.content) now)
      (competitorHostnames result.output.content) =
      (applyTerminalUpdate s1 p (some (serializeResult result)) none
        (mkUpdateData result.output.content) now, [], none) := by
    unfold runFanOut
    exact fanOut_fold_noop submit now meta _ [] none _ hallF1
  have hhc2 : handleCompleted submit (.ok result) p
      (applyTerminalUpdate s1 p (some (serializeResult result)) none
        (mkUpdateData result.output.content) now) now =
      (applyTerminalUpdate s1 p (some (serializeResult result)) none
        (mkUpdateData result.output.content) now, []) := by
    simp only [handleCompleted, hgate1, hgate2, hgate3, hempty, hmeta, jsIsDeep, hdeep,
      Bool.false_eq_true, if_false, bne_self_eq_false, Bool.not_false, Bool.and_self,
      if_true, Option.getD_some, hrun2,
      updateWithData_ok_of_cn (applyTerminalUpdate s1 p (some (serializeResult result)) none
          (mkUpdateData result.output.content) now)
        p (some (serializeResult result)) none
        (mkUpdateData result.output.content) now hcnd]
    rw [applyTerminalUpdate_idem]
  rw [hwh s, hhc1]
  rw [hwh (200, applyTerminalUpdate s1 p (some (serializeResult result)) none
    (mkUpdateData result.output.content) now, subs1).2.1]
  rw [show (200, applyTerminalUpdate s1 p (some (serializeResult result)) none
    (mkUpdateData result.output.content) now, subs1).2.1 =
    applyTerminalUpdate s1 p (some (serializeResult result)) none
    (mkUpdateData result.output.content) now from rfl] at *
  rw [hhc2]
  exact ⟨rfl, rfl, rfl⟩

/-- Deep run metadata of the C4 witness. -/
def c4meta : Metadata :=
  { hostname := some "p.com", isDeep := true, username := some "u",
    profile_image_url := none }

/-- Output content of the C4 witness: two fresh competitors. -/
def c4content : List (String × JVal) :=
  [("company_name", JVal.str "P"),
   ("competitors", JVal.arr [JVal.obj [("hostname", JVal.str "a.com")],
     JVal.obj [("hostname", JVal.str "b.com")]])]

/-- Fetched task result of the C4 witness. -/
def c4result : TaskResult :=
  { output := { otype := "json", content := some c4content },
    run_metadata := some c4meta }

/-- Parsed webhook payload of the C4 witness. -/
def c4payload : WebhookPayload :=
  { ptype := "task_run.status", status := "completed", run_id := "r1",
    metadata := some c4meta, error_message := none }

/-- The first delivery of the C4 witness event, on an empty store. -/
def c4first : Nat × Store × List Submission :=
  handleWebhook c4hmac "sec" "POST" (some "id") (some "ts") (some c4sig) "BODY" c4payload
    (.ok c4result) (fun _ => .ok ()) [] NEW_VERSION_DATE

/-- Witness for C4: redelivering the witness event against the store left
by the first delivery changes nothing and submits nothing. -/
theorem C4_idempotent_delivery_witness :
    (handleWebhook c4hmac "sec" "POST" (some "id") (some "ts") (some c4sig) "BODY" c4payload
      (.ok c4result) (fun _ => .ok ()) c4first.2.1 NEW_VERSION_DATE).2.1 = c4first.2.1 ∧
    (handleWebhook c4hmac "sec" "POST" (some "id") (some "ts") (some c4sig) "BODY" c4payload
      (.ok c4result) (fun _ => .ok ()) c4first.2.1 NEW_VERSION_DATE).2.2 = [] ∧
    (handleWebhook c4hmac "sec" "POST" (some "id") (some "ts") (some c4sig) "BODY" c4payload
      (.ok c4result) (fun _ => .ok ()) c4first.2.1 NEW_VERSION_DATE).1 = 200 :=
  C4_idempotent_delivery c4hmac "sec" "id" "ts" c4sig "BODY" "p.com" c4payload c4result
    c4meta (fun _ => .ok ()) [] NEW_VERSION_DATE (by decide) (by decide) (by decide)
    (by decide) (by decide) (by decide) (by decide) (by decide) (by decide) (by decide)
    (by decide) (by decide) (by decide) (by decide) (fun h _ => rfl) (le_refl _)
